import Mathlib

/-!
# Verification of the Client Ack File Processor

Shallow embedding of `Client_Ack_File_Processor_v4.2.py` (the error-mapping
engine, the mapping-table loader, the reason-code translator and the record
transform pipeline) together with proofs and refutations of the spec claims.

Modelling conventions:
* A pandas `DataFrame` is a `RecordSet`: an ordered list of column names plus
  an ordered list of rows, each row an ordered list of string cells.  The
  program reads both CSV inputs with `dtype=str` semantics (the mapping file
  literally via `dtype=str, keep_default_na=False`; the ack file's cells are
  all eventually handled as strings), so cells are modelled as `String`.
* Column access by label is access at the index of the first column whose
  name matches (pandas label access; the embedding, like the claims, assumes
  column names are not duplicated within one file).
* `dict(zip(keys, vals))` is modelled by `pyDictGet`, an association-list
  lookup where the *last* binding of a key wins, matching Python dict
  overwrite semantics.
* Python exceptions are modelled with `Except String`; the `try/except`
  wrapper of `apply_error_mapping` becomes a `match` on the `Except` result.
-/

instance [DecidableEq ε] [DecidableEq α] : DecidableEq (Except ε α) := fun a b =>
  match a, b with
  | .ok x, .ok y => decidable_of_iff (x = y) (by simp)
  | .error x, .error y => decidable_of_iff (x = y) (by simp)
  | .ok _, .error _ => .isFalse (by simp)
  | .error _, .ok _ => .isFalse (by simp)

/-- One pandas DataFrame: an ordered column schema plus ordered rows of
string cells. -/
structure RecordSet where
  cols : List String
  rows : List (List String)
  deriving DecidableEq, Repr

/-- Index of the first column named `c`, if any (pandas label lookup). -/
def colIdx (cols : List String) (c : String) : Option Nat :=
  match cols with
  | [] => none
  | x :: xs => if x == c then some 0 else (colIdx xs c).map (fun i => i + 1)

/-- Does a column named `c` exist? (`c in df.columns`). -/
def hasColL (cols : List String) (c : String) : Bool :=
  (colIdx cols c).isSome

/-- Does a column named `c` exist in the record set? -/
def hasCol (t : RecordSet) (c : String) : Bool :=
  hasColL t.cols c

/-- The cell of `row` in column `c`, defaulting to `""` when the column is
absent or the row is too short. -/
def getCellD (cols : List String) (row : List String) (c : String) : String :=
  match colIdx cols c with
  | some i => row.getD i ""
  | none => ""

/-- Overwrite the cell of `row` in column `c` (no-op when `c` is absent). -/
def setCell (cols : List String) (row : List String) (c v : String) : List String :=
  match colIdx cols c with
  | some i => row.set i v
  | none => row

/-- `df[c] = vals`: overwrite the column when it exists, else append it as the
last column (pandas column assignment). -/
def setColumn (t : RecordSet) (c : String) (vals : List String) : RecordSet :=
  match colIdx t.cols c with
  | some i => ⟨t.cols, (t.rows.zip vals).map (fun rv => rv.1.set i rv.2)⟩
  | none => ⟨t.cols ++ [c], (t.rows.zip vals).map (fun rv => rv.1 ++ [rv.2])⟩

/-- `df.drop(columns=[c])` guarded by `if c in df.columns` (removes the
column and every row's cell at its position). -/
def dropColumnIfPresent (t : RecordSet) (c : String) : RecordSet :=
  match colIdx t.cols c with
  | some i => ⟨t.cols.eraseIdx i, t.rows.map (fun r => r.eraseIdx i)⟩
  | none => t

/-- `list.insert(i, a)` (Python): insert at position `i`, clamped to the end. -/
def listInsertAt (i : Nat) (a : α) (l : List α) : List α :=
  match i, l with
  | 0, l => a :: l
  | _ + 1, [] => [a]
  | n + 1, x :: xs => x :: listInsertAt n a xs

/-- `dict(zip(keys, vals))[k]` lookup: the last binding of a key wins,
matching Python dict construction by repeated overwrite. -/
def pyDictGet (pairs : List (String × String)) (k : String) : Option String :=
  (pairs.reverse.find? (fun p => p.1 == k)).map (fun p => p.2)

/-- A Python value that is either an `int` or a `str`, the two shapes the
reason-code translator is fed in this program. -/
inductive PyVal where
  | pint : Int → PyVal
  | pstr : String → PyVal
  deriving DecidableEq, Repr

/-- Python `str(code)`. -/
def pyStr : PyVal → String
  | .pint n => toString n
  | .pstr s => s

/-- Fragment model of the character class accepted by Python's
`str.isdigit`: the ASCII decimal digits plus digit-category characters that
are *not* decimal digits, of which the compatibility superscripts ¹ ² ³ are
the canonical examples (`"²".isdigit()` is `True` in Python even though
`int("²")` raises).  Other Unicode numerals are not modelled. -/
def isPyDigitChar (c : Char) : Bool :=
  c.isDigit || c == '¹' || c == '²' || c == '³'

/-- Python `str.isdigit`: non-empty and every character a digit-category
character. -/
def pyIsDigitStr (s : String) : Bool :=
  !s.data.isEmpty && s.data.all isPyDigitChar

/-- Numeric value of an all-ASCII-decimal string. -/
def decDigitsToNat (s : String) : Nat :=
  s.data.foldl (fun a c => a * 10 + (c.toNat - 48)) 0

/-- Python `int(code)` as invoked under the `str(code).isdigit()` guard: an
`int` coerces to itself; a string parses only when it consists of decimal
digits, and raises `ValueError` otherwise (e.g. on the superscript `"²"`,
which passes `isdigit` but is not a decimal-digit string). -/
def pyIntCoerce : PyVal → Except String Int
  | .pint n => .ok n
  | .pstr s =>
      if !s.data.isEmpty && s.data.all Char.isDigit then .ok (decDigitsToNat s : Int)
      else .error "ValueError"

/-- The fixed reason-code table `{1: "Sales", 2: "Payments", 3: "Cancels",
5: "Sales"}`. -/
def codeMap : List (Int × String) :=
  [(1, "Sales"), (2, "Payments"), (3, "Cancels"), (5, "Sales")]

/-- `code_map.get(k, dflt)` for an integer key. -/
def codeMapGet (k : Int) (dflt : String) : String :=
  ((codeMap.find? (fun p => p.1 == k)).map (fun p => p.2)).getD dflt

/-- `get_transaction_reason_text`:
`code_map.get(int(code) if str(code).isdigit() else code, str(code))`.
When the string form passes `isdigit`, the key is `int(code)` (which can
raise); otherwise the original value is used as the key, and a string key
never hits the int-keyed dict while an int key may. -/
def get_transaction_reason_text (code : PyVal) : Except String String :=
  if pyIsDigitStr (pyStr code) then
    match pyIntCoerce code with
    | .ok n => .ok (codeMapGet n (pyStr code))
    | .error e => .error e
  else
    match code with
    | .pint n => .ok (codeMapGet n (pyStr code))
    | .pstr s => .ok s

example : get_transaction_reason_text (.pstr "1") = .ok "Sales" := by decide
example : get_transaction_reason_text (.pint 5) = .ok "Sales" := by decide
example : get_transaction_reason_text (.pstr "X") = .ok "X" := by decide
example : get_transaction_reason_text (.pint (-3)) = .ok "-3" := by decide
example : get_transaction_reason_text (.pstr "²") = .error "ValueError" := by decide

/-- Python `str.upper` (ASCII fragment, which covers the `"TRUE"` and
`"COSIGN"` comparisons the program makes). -/
def pyUpper (s : String) : String :=
  String.mk (s.data.map Char.toUpper)

/-- `df[IS_ERROR_COL].astype(str).str.upper() == "TRUE"` for one row: the row
is an error row when its `isError` cell uppercases to `"TRUE"`. -/
def isErrorRow (cols : List String) (row : List String) : Bool :=
  pyUpper (getCellD cols row "isError") == "TRUE"

/-- `mapping_df[c]`: the values of column `c`, raising `KeyError` when the
column is absent (pandas label access on the mapping table). -/
def colValuesE (t : RecordSet) (c : String) : Except String (List String) :=
  if hasColL t.cols c then .ok (t.rows.map (fun r => getCellD t.cols r c))
  else .error ("KeyError: " ++ c)

/-- `dict(zip(mapping_df["composite_key"], mapping_df["Client_Error_Type"]))`
where `composite_key = Error_Type + "|" + file_type_2`.  Every mapping row
contributes an entry; rows with empty `file_type_2` contribute the key
`error_type + "|"`. -/
def compositeErrPairs (t : RecordSet) : Except String (List (String × String)) :=
  match colValuesE t "Error_Type", colValuesE t "file_type_2",
        colValuesE t "Client_Error_Type" with
  | .ok et, .ok ft, .ok cet =>
      .ok (((et.zip ft).zip cet).map (fun p => (p.1.1 ++ "|" ++ p.1.2, p.2)))
  | .error e, _, _ => .error e
  | _, .error e, _ => .error e
  | _, _, .error e => .error e

/-- `dict(zip(mapping_df["composite_key"], mapping_df["Client Action"]))`. -/
def compositeActPairs (t : RecordSet) : Except String (List (String × String)) :=
  match colValuesE t "Error_Type", colValuesE t "file_type_2",
        colValuesE t "Client Action" with
  | .ok et, .ok ft, .ok ca =>
      .ok (((et.zip ft).zip ca).map (fun p => (p.1.1 ++ "|" ++ p.1.2, p.2)))
  | .error e, _, _ => .error e
  | _, .error e, _ => .error e
  | _, _, .error e => .error e

/-- `dict(zip(mapping_df["Error_Type"], mapping_df["Client_Error_Type"]))`. -/
def simpleErrPairs (t : RecordSet) : Except String (List (String × String)) :=
  match colValuesE t "Error_Type", colValuesE t "Client_Error_Type" with
  | .ok et, .ok cet => .ok (et.zip cet)
  | .error e, _ => .error e
  | _, .error e => .error e

/-- `dict(zip(mapping_df["Error_Type"], mapping_df["Client Action"]))`. -/
def simpleActPairs (t : RecordSet) : Except String (List (String × String)) :=
  match colValuesE t "Error_Type", colValuesE t "Client Action" with
  | .ok et, .ok ca => .ok (et.zip ca)
  | .error e, _ => .error e
  | _, .error e => .error e

/-- Tier-1 match test for one row: the row is an error row and its
`composite_key` cell is a key of the composite mapping
(`error_mask = error_rows & result_df["composite_key"].isin(...)`). -/
def tier1Hit (ce : List (String × String)) (cols row : List String) : Bool :=
  isErrorRow cols row && (pyDictGet ce (getCellD cols row "composite_key")).isSome

/-- Tier-1 rewrite of one matched row: `Error_Type` gets the composite
mapping of the row's `composite_key`, and `Client_Action` (when that column
exists) gets the composite action mapping of the same key, `fillna("")`. -/
def tier1Update (ce ca : List (String × String)) (cols row : List String) :
    List String :=
  let k := getCellD cols row "composite_key"
  let row1 := setCell cols row "Error_Type" ((pyDictGet ce k).getD "")
  if hasColL cols "Client_Action" then
    setCell cols row1 "Client_Action" ((pyDictGet ca k).getD "")
  else row1

/-- The tier-1 pass on one row: rewrite exactly the rows of `error_mask`. -/
def tier1Step (ce ca : List (String × String)) (cols row : List String) :
    List String :=
  if tier1Hit ce cols row then tier1Update ce ca cols row else row

/-- `remaining_errors` per row: an error row not matched by tier 1.  The code
computes this from the saved `error_mask` index set (empty when tier 1 was
skipped, i.e. `t1 = false`); since the tier-1 rewrite touches neither the
`isError` nor the `composite_key` cell, re-testing the current row is
equivalent to consulting the saved mask. -/
def remainingFlagRow (t1 : Bool) (ce : List (String × String))
    (cols row : List String) : Bool :=
  isErrorRow cols row && !(t1 && tier1Hit ce cols row)

/-- Tier-2 match test for one row:
`result_df[ERROR_TYPE_COL].isin(simple_error_mapping.keys())`. -/
def tier2Hit (se : List (String × String)) (cols row : List String) : Bool :=
  (pyDictGet se (getCellD cols row "Error_Type")).isSome

/-- Tier-2 rewrite of one matched row, faithful to the source's statement
order: `Error_Type` is overwritten with the simple mapping of the row's
(pre-tier-2) `Error_Type` first, and the `Client_Action` assignment then
reads `result_df.loc[mask, ERROR_TYPE_COL]` — the column it has just
rewritten — so the action lookup is keyed by the freshly written
`Client_Error_Type` value, `fillna("")`. -/
def tier2Update (se sa : List (String × String)) (cols row : List String) :
    List String :=
  let et := getCellD cols row "Error_Type"
  let row1 := setCell cols row "Error_Type" ((pyDictGet se et).getD "")
  if hasColL cols "Client_Action" then
    setCell cols row1 "Client_Action"
      ((pyDictGet sa (getCellD cols row1 "Error_Type")).getD "")
  else row1

/-- The tier-2 pass on one row: rewrite exactly the remaining error rows
whose `Error_Type` is a simple-mapping key. -/
def tier2Step (t1 : Bool) (ce se sa : List (String × String))
    (cols row : List String) : List String :=
  if remainingFlagRow t1 ce cols row && tier2Hit se cols row then
    tier2Update se sa cols row
  else row

/-- Step 1 of `apply_error_mapping`: when a `Transaction_Reason` column
exists, add (or overwrite) the transient `Transaction_Reason_Text` column
with the translated reason of every row; `pandas.Series.apply` propagates
any exception the translator raises. -/
def stageTRT (ack : RecordSet) : Except String RecordSet :=
  if hasCol ack "Transaction_Reason" then
    match ack.rows.mapM (fun row =>
        get_transaction_reason_text (.pstr (getCellD ack.cols row "Transaction_Reason"))) with
    | .ok vals => .ok (setColumn ack "Transaction_Reason_Text" vals)
    | .error e => .error e
  else .ok ack

/-- The per-row composite key of the ack file:
`Error_Type + "|" + Transaction_Reason_Text`. -/
def ackCompositeKey (cols row : List String) : String :=
  getCellD cols row "Error_Type" ++ "|" ++ getCellD cols row "Transaction_Reason_Text"

/-- Strategy 1 of `apply_error_mapping`.  When both the transient
`Transaction_Reason_Text` column and the mapping table's `file_type_2`
column exist: build the composite dictionaries, materialize the transient
`composite_key` column, and apply the tier-1 rewrite to matched error rows.
Returns the record set, whether tier 1 ran, and the composite error
dictionary (needed to identify the remaining rows). -/
def stageTier1 (r1 mdf : RecordSet) :
    Except String (RecordSet × Bool × List (String × String)) :=
  if hasCol r1 "Transaction_Reason_Text" && hasCol mdf "file_type_2" then
    match compositeErrPairs mdf, compositeActPairs mdf with
    | .ok ce, .ok ca =>
        let r1k := setColumn r1 "composite_key"
          (r1.rows.map (fun row => ackCompositeKey r1.cols row))
        .ok (⟨r1k.cols, r1k.rows.map (fun row => tier1Step ce ca r1k.cols row)⟩, true, ce)
    | .error e, _ => .error e
    | _, .error e => .error e
  else .ok (r1, false, [])

/-- Strategy 2 of `apply_error_mapping`: when any error row remains
unmatched, build the simple dictionaries and apply the tier-2 rewrite to the
remaining error rows whose `Error_Type` is a simple key. -/
def stageTier2 (r2 mdf : RecordSet) (t1 : Bool) (ce : List (String × String)) :
    Except String RecordSet :=
  if r2.rows.any (fun row => remainingFlagRow t1 ce r2.cols row) then
    match simpleErrPairs mdf, simpleActPairs mdf with
    | .ok se, .ok sa =>
        .ok ⟨r2.cols, r2.rows.map (fun row => tier2Step t1 ce se sa r2.cols row)⟩
    | .error e, _ => .error e
    | _, .error e => .error e
  else .ok r2

/-- The body of `apply_error_mapping` (everything inside its `try`): the
required-column soft-fail, the no-error-rows early return, the transient
reason-text column, the two matching tiers, and the cleanup that drops the
transient `composite_key` and `Transaction_Reason_Text` columns. -/
def applyErrorMappingBody (ack mdf : RecordSet) : Except String RecordSet :=
  if !(hasCol ack "Error_Type" && hasCol ack "isError") then .ok ack
  else if !(ack.rows.any (fun r => isErrorRow ack.cols r)) then .ok ack
  else
    match stageTRT ack with
    | .error e => .error e
    | .ok r1 =>
      match stageTier1 r1 mdf with
      | .error e => .error e
      | .ok (r2, t1, ce) =>
        match stageTier2 r2 mdf t1 ce with
        | .error e => .error e
        | .ok r3 =>
            .ok (dropColumnIfPresent (dropColumnIfPresent r3 "composite_key")
                  "Transaction_Reason_Text")

/-- `apply_error_mapping`: run the body; on any internal exception return
the original, unmodified ack record set (`except ... return ack_df`). -/
def apply_error_mapping (ack mdf : RecordSet) : RecordSet :=
  match applyErrorMappingBody ack mdf with
  | .ok r => r
  | .error _ => ack

example :
    apply_error_mapping
      ⟨["Error_Type", "isError", "Client_Action"], [["E1", "TRUE", "old"]]⟩
      ⟨["Error_Type", "Client_Error_Type", "Client Action"], [["E1", "CE1", "Act"]]⟩
    = ⟨["Error_Type", "isError", "Client_Action"], [["CE1", "TRUE", ""]]⟩ := by decide

example :
    apply_error_mapping
      ⟨["Error_Type", "isError", "Transaction_Reason", "Client_Action"],
        [["E", "TRUE", "", "old"]]⟩
      ⟨["Error_Type", "Client_Error_Type", "Client Action", "file_type_2"],
        [["E", "CE", "Act", ""]]⟩
    = ⟨["Error_Type", "isError", "Transaction_Reason", "Client_Action"],
        [["CE", "TRUE", "", "Act"]]⟩ := by decide

example :
    apply_error_mapping
      ⟨["Error_Type", "isError", "composite_key"],
        [["E", "TRUE", "x"], ["F", "false", "keep"]]⟩
      ⟨["Error_Type", "Client_Error_Type", "Client Action"], [["Z", "CZ", "AZ"]]⟩
    = ⟨["Error_Type", "isError"], [["E", "TRUE"], ["F", "false"]]⟩ := by decide

example :
    apply_error_mapping
      ⟨["Error_Type", "isError", "Transaction_Reason", "Client_Action"],
        [["ERR1", "TRUE", "1", ""]]⟩
      ⟨["Error_Type", "file_type_2", "Client_Error_Type", "Client Action"],
        [["ERR1", "Sales", "E1-Mapped", "Resubmit"]]⟩
    = ⟨["Error_Type", "isError", "Transaction_Reason", "Client_Action"],
        [["E1-Mapped", "TRUE", "1", "Resubmit"]]⟩ := by decide

/-- Python `str.strip()`: drop leading and trailing whitespace. -/
def pyStrip (s : String) : String :=
  String.mk (((s.data.dropWhile Char.isWhitespace).reverse.dropWhile
    Char.isWhitespace).reverse)

/-- Worker for `dropDuplicates`: keep a row only when it has not been seen
before. -/
def dropDupsAux (seen : List (List String)) : List (List String) → List (List String)
  | [] => []
  | r :: rs =>
      if seen.contains r then dropDupsAux seen rs
      else r :: dropDupsAux (r :: seen) rs

/-- `DataFrame.drop_duplicates()`: keep the first occurrence of each fully
identical row. -/
def dropDuplicates (l : List (List String)) : List (List String) :=
  dropDupsAux [] l

/-- The columns whose whitespace the loader strips (when present). -/
def stripListCols : List String :=
  ["Error_Type", "Client_Error_Type", "Client Action", "file_type_2"]

/-- Strip whitespace from the key columns of one mapping row
(`mapping_df[col] = mapping_df[col].str.strip()` for each present column). -/
def stripKeyCols (cols row : List String) : List String :=
  stripListCols.foldl
    (fun r c => if hasColL cols c then setCell cols r c (pyStrip (getCellD cols r c)) else r)
    row

/-- `load_error_mapping_file` (its pure part, after `pd.read_csv(dtype=str,
keep_default_na=False)`): require the three mandatory columns, drop rows
with blank `Error_Type`, drop fully duplicate rows, then strip whitespace
from the key columns.  `None` models the error return. -/
def load_error_mapping_file (t : RecordSet) : Option RecordSet :=
  if ["Error_Type", "Client_Error_Type", "Client Action"].all
      (fun c => hasColL t.cols c) then
    let rows1 := t.rows.filter (fun r => pyStrip (getCellD t.cols r "Error_Type") != "")
    let rows2 := dropDuplicates rows1
    some ⟨t.cols, rows2.map (fun r => stripKeyCols t.cols r)⟩
  else none

example :
    load_error_mapping_file
      ⟨["Error_Type", "Client_Error_Type", "Client Action"],
        [["E", "C", "A"], ["E ", "C", "A"], ["  ", "x", "y"]]⟩
    = some ⟨["Error_Type", "Client_Error_Type", "Client Action"],
        [["E", "C", "A"], ["E", "C", "A"]]⟩ := by decide

/-- The columns `process_csv_file` drops unconditionally at the start. -/
def columnsToDropGeneral : List String :=
  ["Transfer_Flag", "job_run_registration", "incoming_record_guid", "is_ipay",
   "Error_Job_Run", "Error_Source", "Error_Update_Datetime", "Genesis_Job_Run",
   "Standard_Job_Run"]

/-- Step 2 of the pipeline: drop the fixed general columns that exist. -/
def dropGeneralStep (t : RecordSet) : RecordSet :=
  columnsToDropGeneral.foldl (fun acc c => dropColumnIfPresent acc c) t

/-- The desired `Source_Filename` value:
`global_source_filename + ".csv"` when the configured name is non-empty
(Python truthiness of the string), else `""`. -/
def desiredOf (gsf : String) : String :=
  if gsf == "" then "" else gsf ++ ".csv"

/-- Step 3 of the pipeline: materialize `Source_Filename`.  When the column
is absent, insert it immediately after `Original_Contract_Number` when that
column exists, else append it last; when it exists, overwrite every row with
the desired value. -/
def sourceFilenameStep (t : RecordSet) (gsf : String) : RecordSet :=
  let desired := desiredOf gsf
  if !(hasColL t.cols "Source_Filename") then
    match colIdx t.cols "Original_Contract_Number" with
    | some i =>
        ⟨listInsertAt (i + 1) "Source_Filename" t.cols,
         t.rows.map (fun r => listInsertAt (i + 1) desired r)⟩
    | none => setColumn t "Source_Filename" (t.rows.map (fun _ => desired))
  else setColumn t "Source_Filename" (t.rows.map (fun _ => desired))

/-- Is this row a COSIGN row
(`df[AGENT_NUMBER_COL].astype(str).str.upper() == "COSIGN"`)? -/
def cosignRow (cols row : List String) : Bool :=
  pyUpper (getCellD cols row "Agent_Number") == "COSIGN"

/-- The COSIGN trigger: the `Agent_Number` column exists and some row's
uppercased value is `"COSIGN"`. -/
def cosignTriggered (t : RecordSet) : Bool :=
  hasColL t.cols "Agent_Number" && t.rows.any (fun r => cosignRow t.cols r)

/-- The property-PII columns cleared for COSIGN rows. -/
def COSIGN_PII_COLUMNS : List String :=
  ["Property_Address", "Property_City", "Property_State_Code", "Property_Zip"]

/-- Step 4a: for each existing property-PII column, blank the cell of every
COSIGN row (other rows untouched). -/
def cosignClearStep (t : RecordSet) : RecordSet :=
  COSIGN_PII_COLUMNS.foldl
    (fun acc c =>
      if hasColL acc.cols c then
        ⟨acc.cols,
         acc.rows.map (fun r => if cosignRow acc.cols r then setCell acc.cols r c "" else r)⟩
      else acc)
    t

/-- Step 4b: when both `Source_Filename` and `incoming_client_filename`
exist and `Source_Filename` sits after `incoming_client_filename`, pop
`Source_Filename` from its position and re-insert it immediately before
`incoming_client_filename` (a file-wide column move). -/
def moveSourceFilename (t : RecordSet) : RecordSet :=
  match colIdx t.cols "Source_Filename", colIdx t.cols "incoming_client_filename" with
  | some si, some ii =>
      if ii < si then
        ⟨listInsertAt ii "Source_Filename" (t.cols.eraseIdx si),
         t.rows.map (fun r => listInsertAt ii (r.getD si "") (r.eraseIdx si))⟩
      else t
  | _, _ => t

/-- Step 4: the COSIGN-specific transform, applied only when triggered:
PII clearing (4a) then the column move (4b). -/
def cosignStep (t : RecordSet) : RecordSet :=
  if cosignTriggered t then moveSourceFilename (cosignClearStep t) else t

/-- Step 5: ensure `Client_Action` exists — insert it immediately after
`Error_Message` when that column exists, else append it last, blank in every
row. -/
def clientActionStep (t : RecordSet) : RecordSet :=
  if !(hasColL t.cols "Client_Action") then
    match colIdx t.cols "Error_Message" with
    | some i =>
        ⟨listInsertAt (i + 1) "Client_Action" t.cols,
         t.rows.map (fun r => listInsertAt (i + 1) "" r)⟩
    | none => setColumn t "Client_Action" (t.rows.map (fun _ => ""))
  else t

/-- The customer-PII columns cleared by the general PII scrub. -/
def customerPiiColumns : List String :=
  ["Customer_First_Name", "Customer_Address_1", "Customer_City",
   "Customer_State", "Customer_Zip_Code", "Customer_Phone", "Customer_Email"]

/-- Step 7: blank every existing customer-PII column in all rows. -/
def piiScrubStep (t : RecordSet) : RecordSet :=
  customerPiiColumns.foldl
    (fun acc c =>
      if hasColL acc.cols c then setColumn acc c (acc.rows.map (fun _ => ""))
      else acc)
    t

/-- `re.sub("nan", "", s)`: remove every (left-to-right, non-overlapping)
occurrence of the substring `"nan"` — what
`df.replace("nan", "", regex=True)` does to each cell. -/
def replaceNanList : List Char → List Char
  | 'n' :: 'a' :: 'n' :: rest => replaceNanList rest
  | c :: rest => c :: replaceNanList rest
  | [] => []

/-- The cell-level regex replacement of the final normalization step. -/
def replaceNanCell (s : String) : String :=
  String.mk (replaceNanList s.data)

/-- Step 8: coerce every cell to its string form (the identity in this
all-string model) and apply the `regex=True` replacement of `"nan"` by `""`
to every cell. -/
def normalizeStep (t : RecordSet) : RecordSet :=
  ⟨t.cols, t.rows.map (fun r => r.map replaceNanCell)⟩

/-- `process_csv_file` on an already-parsed record set: validation followed
by the eight pipeline steps (drop, Source_Filename, COSIGN, Client_Action,
error mapping when a table is configured, conditional PII scrub,
normalization). -/
def process_csv_file (df : RecordSet) (gsf : String) (removePii : Bool)
    (emdf : Option RecordSet) : Except String RecordSet :=
  if df.rows.isEmpty then .error "no data rows"
  else if df.cols.isEmpty then .error "no columns"
  else
    let d1 := dropGeneralStep df
    let d2 := sourceFilenameStep d1 gsf
    let d3 := cosignStep d2
    let d4 := clientActionStep d3
    let d5 := match emdf with
      | some m => apply_error_mapping d4 m
      | none => d4
    let d6 := if removePii then piiScrubStep d5 else d5
    .ok (normalizeStep d6)

example : replaceNanCell "banana" = "baa" := by decide
example : replaceNanCell "nan" = "" := by decide
example : replaceNanCell "NaN" = "NaN" := by decide

example :
    process_csv_file ⟨["Original_Contract_Number", "Note"], [["C1", "n"]]⟩
      "BATCH1" false none
    = .ok ⟨["Original_Contract_Number", "Source_Filename", "Note", "Client_Action"],
        [["C1", "BATCH1.csv", "n", ""]]⟩ := by decide

example :
    process_csv_file
      ⟨["Agent_Number", "Property_Address"],
        [["COSIGN", "123 Main"], ["OTHER", "456 Oak"]]⟩
      "" false none
    = .ok ⟨["Agent_Number", "Property_Address", "Source_Filename", "Client_Action"],
        [["COSIGN", "", "", ""], ["OTHER", "456 Oak", "", ""]]⟩ := by decide

lemma dropDupsAux_not_mem_seen :
    ∀ (l seen : List (List String)) (x : List String),
      x ∈ dropDupsAux seen l → x ∉ seen := by
  intro l
  induction l with
  | nil => intro seen x hx; simp [dropDupsAux] at hx
  | cons r rs ih =>
      intro seen x hx
      by_cases hc : seen.contains r
      · rw [dropDupsAux, if_pos hc] at hx
        exact ih seen x hx
      · rw [dropDupsAux, if_neg hc] at hx
        rcases List.mem_cons.mp hx with h | h
        · subst h
          simpa using hc
        · intro hmem
          exact ih (r :: seen) x h (List.mem_cons_of_mem r hmem)

lemma dropDupsAux_nodup :
    ∀ (l seen : List (List String)), (dropDupsAux seen l).Nodup := by
  intro l
  induction l with
  | nil => intro seen; simp [dropDupsAux]
  | cons r rs ih =>
      intro seen
      by_cases hc : seen.contains r
      · rw [dropDupsAux, if_pos hc]; exact ih seen
      · rw [dropDupsAux, if_neg hc]
        refine List.nodup_cons.mpr ⟨?_, ih (r :: seen)⟩
        intro hmem
        exact dropDupsAux_not_mem_seen rs (r :: seen) r hmem (List.mem_cons_self r seen)

lemma dropDuplicates_nodup (l : List (List String)) : (dropDuplicates l).Nodup :=
  dropDupsAux_nodup l []

/-- C1.  The claim asserts that a tier-2 (fallback) hit overwrites
`Client_Action` with the matching rule's `client_action`, keyed by the row's
original `Error_Type`.  The code instead assigns
`result_df.loc[mask, ERROR_TYPE_COL].map(simple_action_mapping).fillna("")`
*after* it has already overwritten `Error_Type` with `Client_Error_Type`, so
the action lookup is keyed by the freshly written `Client_Error_Type` value
and comes back empty unless that value happens to itself be an `Error_Type`
key.  On the input below the rule `{Error_Type: "E1", Client_Error_Type:
"CE1", "Client Action": "Act"}` matches the error row `("E1", "TRUE",
"old")` in tier 2; the simple action dictionary maps `"E1"` to `"Act"`, yet
the output row gets `Client_Action = ""` rather than `"Act"`. -/
theorem c1_tier2_clientAction_keyed_by_rewritten_value :
    simpleActPairs
        ⟨["Error_Type", "Client_Error_Type", "Client Action"], [["E1", "CE1", "Act"]]⟩
      = .ok [("E1", "Act")] ∧
    pyDictGet [("E1", "Act")] "E1" = some "Act" ∧
    apply_error_mapping
        ⟨["Error_Type", "isError", "Client_Action"], [["E1", "TRUE", "old"]]⟩
        ⟨["Error_Type", "Client_Error_Type", "Client Action"], [["E1", "CE1", "Act"]]⟩
      = ⟨["Error_Type", "isError", "Client_Action"], [["CE1", "TRUE", ""]]⟩ := by
  refine ⟨by decide, by decide, by decide⟩

/-- C2.  The claim asserts that the final normalization replaces a cell by
`""` if and only if the whole cell is literally `"nan"`.  The code calls
`df.replace("nan", "", regex=True)`, which performs substring regex
replacement: a full-cell `"nan"` does become `""`, but a cell merely
containing `"nan"` is corrupted — `"banana"` becomes `"baa"` instead of
being left unchanged. -/
theorem c2_normalize_regex_replaces_substrings :
    normalizeStep ⟨["A", "B"], [["banana", "nan"]]⟩
      = ⟨["A", "B"], [["baa", ""]]⟩ ∧
    replaceNanCell "banana" = "baa" ∧ "banana" ≠ "nan" := by
  refine ⟨by decide, by decide, by decide⟩

/-- C5 counterexample.  The translator is not total: on the string `"²"`
(which Python's `str.isdigit` accepts but `int` cannot parse) the code
raises `ValueError` instead of returning a string, refuting "it never fails
on any input". -/
theorem c5_counterexample_superscript_two_raises :
    get_transaction_reason_text (.pstr "²") = .error "ValueError" := by
  decide

/-- C5 amended.  The translator maps 1, 2, 3, 5 to "Sales", "Payments",
"Cancels", "Sales" and passes every other value through unchanged, and it
never fails on any `int` input, any non-digit string, or any decimal-digit
string; it fails exactly on the strings that pass Python's `isdigit` test
but are not parsable by `int` (such as `"²"`). -/
theorem c5_amended_translator_behaviour :
    (get_transaction_reason_text (.pint 1) = .ok "Sales" ∧
     get_transaction_reason_text (.pint 2) = .ok "Payments" ∧
     get_transaction_reason_text (.pint 3) = .ok "Cancels" ∧
     get_transaction_reason_text (.pint 5) = .ok "Sales" ∧
     get_transaction_reason_text (.pstr "X") = .ok "X") ∧
    (∀ n : Int, get_transaction_reason_text (.pint n) = .ok (codeMapGet n (toString n))) ∧
    (∀ s : String, pyIsDigitStr s = false → get_transaction_reason_text (.pstr s) = .ok s) ∧
    (∀ s : String, s.data.isEmpty = false → s.data.all Char.isDigit = true →
      get_transaction_reason_text (.pstr s) = .ok (codeMapGet (decDigitsToNat s) s)) := by
  refine ⟨⟨by decide, by decide, by decide, by decide, by decide⟩, ?_, ?_, ?_⟩
  · intro n
    unfold get_transaction_reason_text
    split
    · simp [pyIntCoerce, pyStr]
    · simp [pyStr]
  · intro s hs
    unfold get_transaction_reason_text
    simp [pyStr, hs]
  · intro s hne hall
    have hdig : pyIsDigitStr s = true := by
      unfold pyIsDigitStr
      rw [hne]
      simp only [Bool.not_false, Bool.true_and]
      rw [List.all_eq_true] at hall ⊢
      intro c hc
      unfold isPyDigitChar
      rw [hall c hc]
      rfl
    unfold get_transaction_reason_text
    rw [pyStr, hdig]
    simp [pyIntCoerce, hne, hall, pyStr]

/-- C5 witness for the amended statement's quantified parts, at concrete
inputs: the digit string `"007"` (which is not one of the mapped codes and
passes through as itself) and the non-digit string `"abc"`. -/
theorem c5_amended_witness :
    get_transaction_reason_text (.pint 42) = .ok (codeMapGet 42 (toString (42 : Int))) ∧
    get_transaction_reason_text (.pstr "abc") = .ok "abc" ∧
    get_transaction_reason_text (.pstr "007") = .ok (codeMapGet (decDigitsToNat "007") "007") :=
  ⟨c5_amended_translator_behaviour.2.1 42,
   c5_amended_translator_behaviour.2.2.1 "abc" (by decide),
   c5_amended_translator_behaviour.2.2.2 "007" (by decide) (by decide)⟩

/-- C4 counterexample.  The loader removes duplicates *before* trimming
whitespace, so two input rows that differ only by trailing whitespace in
`Error_Type` survive deduplication and then become fully identical after the
trim: the loaded table below contains the row `["E", "C", "A"]` twice,
refuting the claimed no-fully-duplicate-rows invariant of the table as
finally loaded. -/
theorem c4_counterexample_trim_after_dedup :
    load_error_mapping_file
        ⟨["Error_Type", "Client_Error_Type", "Client Action"],
          [["E", "C", "A"], ["E ", "C", "A"]]⟩
      = some ⟨["Error_Type", "Client_Error_Type", "Client Action"],
          [["E", "C", "A"], ["E", "C", "A"]]⟩ ∧
    (["E", "C", "A"] : List String) ≠ ["E ", "C", "A"] := by
  refine ⟨by decide, by decide⟩

/-- C4 amended.  Deduplication happens before the whitespace trim: every
accepted mapping table equals, row for row, the whitespace-trimmed image of
a duplicate-free list (the rows surviving the blank-filter and the
pre-trim duplicate removal), so no two *pre-trim* rows of the loaded table
are fully identical; rows differing only by whitespace in the trimmed
columns may still coincide after the trim. -/
theorem c4_amended_dedup_before_trim :
    ∀ (t r : RecordSet), load_error_mapping_file t = some r →
      ∃ base : List (List String), base.Nodup ∧ r.cols = t.cols ∧
        r.rows = base.map (fun row => stripKeyCols t.cols row) := by
  intro t r h
  unfold load_error_mapping_file at h
  split at h
  · refine ⟨dropDuplicates (t.rows.filter
      (fun row => pyStrip (getCellD t.cols row "Error_Type") != "")), ?_, ?_, ?_⟩
    · exact dropDuplicates_nodup _
    · exact (congrArg RecordSet.cols (Option.some.injEq _ _ ▸ h : _)).symm ▸ rfl
    · cases h
      rfl
  · exact absurd h (by simp)

/-- C4 witness: the amended statement applied to the counterexample table. -/
theorem c4_amended_witness :
    ∃ base : List (List String), base.Nodup ∧
      (⟨["Error_Type", "Client_Error_Type", "Client Action"],
          [["E", "C", "A"], ["E", "C", "A"]]⟩ : RecordSet).cols
        = (⟨["Error_Type", "Client_Error_Type", "Client Action"],
            [["E", "C", "A"], ["E ", "C", "A"]]⟩ : RecordSet).cols ∧
      (⟨["Error_Type", "Client_Error_Type", "Client Action"],
          [["E", "C", "A"], ["E", "C", "A"]]⟩ : RecordSet).rows
        = base.map (fun row => stripKeyCols
            (⟨["Error_Type", "Client_Error_Type", "Client Action"],
              [["E", "C", "A"], ["E ", "C", "A"]]⟩ : RecordSet).cols row) :=
  c4_amended_dedup_before_trim
    ⟨["Error_Type", "Client_Error_Type", "Client Action"],
      [["E", "C", "A"], ["E ", "C", "A"]]⟩
    ⟨["Error_Type", "Client_Error_Type", "Client Action"],
      [["E", "C", "A"], ["E", "C", "A"]]⟩
    (by decide)

/-- C3 counterexample.  The composite (tier-1) index is built from *every*
mapping row, with no filter on `file_type_2`: the rule `{Error_Type: "E",
Client_Error_Type: "CE", "Client Action": "Act", file_type_2: ""}` has empty
`file_type_2` yet contributes the composite key `"E|"`, and the error row
with original `Error_Type = "E"` and empty reason text tier-1-matches it —
visible in the output because the tier-1 path writes the rule's
`client_action` `"Act"` into `Client_Action` (a tier-2 match would have
written `""` there). -/
theorem c3_counterexample_empty_file_type_2_in_composite_index :
    compositeErrPairs
        ⟨["Error_Type", "Client_Error_Type", "Client Action", "file_type_2"],
          [["E", "CE", "Act", ""]]⟩
      = .ok [("E|", "CE")] ∧
    getCellD ["Error_Type", "Client_Error_Type", "Client Action", "file_type_2"]
        ["E", "CE", "Act", ""] "file_type_2" = "" ∧
    apply_error_mapping
        ⟨["Error_Type", "isError", "Transaction_Reason", "Client_Action"],
          [["E", "TRUE", "", "old"]]⟩
        ⟨["Error_Type", "Client_Error_Type", "Client Action", "file_type_2"],
          [["E", "CE", "Act", ""]]⟩
      = ⟨["Error_Type", "isError", "Transaction_Reason", "Client_Action"],
          [["CE", "TRUE", "", "Act"]]⟩ := by
  refine ⟨by decide, by decide, by decide⟩

/-- C3 amended.  Whenever the mapping table has the three columns the
composite build reads, the composite-key index contains exactly one entry
per mapping rule — including rules whose `file_type_2` is empty, which are
keyed `error_type + "|"` — so a row whose reason text is empty can
tier-1-match a rule with empty `file_type_2`. -/
theorem c3_amended_composite_index_has_all_rules :
    ∀ mdf : RecordSet,
      hasCol mdf "Error_Type" = true →
      hasCol mdf "file_type_2" = true →
      hasCol mdf "Client_Error_Type" = true →
      compositeErrPairs mdf
        = .ok (mdf.rows.map (fun r =>
            (getCellD mdf.cols r "Error_Type" ++ "|" ++ getCellD mdf.cols r "file_type_2",
             getCellD mdf.cols r "Client_Error_Type"))) := by
  intro mdf h1 h2 h3
  unfold compositeErrPairs colValuesE
  rw [hasCol] at h1 h2 h3
  rw [if_pos h1, if_pos h2, if_pos h3]
  dsimp only
  rw [List.zip_map', List.zip_map', List.map_map]
  rfl

/-- C3 witness: the amended statement applied to a two-rule table, one rule
with empty and one with non-empty `file_type_2`; both appear in the
composite index. -/
theorem c3_amended_witness :
    compositeErrPairs
        ⟨["Error_Type", "Client_Error_Type", "Client Action", "file_type_2"],
          [["E", "CE", "Act", ""], ["F", "CF", "AF", "Sales"]]⟩
      = .ok ((⟨["Error_Type", "Client_Error_Type", "Client Action", "file_type_2"],
          [["E", "CE", "Act", ""], ["F", "CF", "AF", "Sales"]]⟩ : RecordSet).rows.map
            (fun r =>
              (getCellD ["Error_Type", "Client_Error_Type", "Client Action", "file_type_2"]
                  r "Error_Type" ++ "|" ++
                getCellD ["Error_Type", "Client_Error_Type", "Client Action", "file_type_2"]
                  r "file_type_2",
               getCellD ["Error_Type", "Client_Error_Type", "Client Action", "file_type_2"]
                  r "Client_Error_Type"))) :=
  c3_amended_composite_index_has_all_rules
    ⟨["Error_Type", "Client_Error_Type", "Client Action", "file_type_2"],
      [["E", "CE", "Act", ""], ["F", "CF", "AF", "Sales"]]⟩
    (by decide) (by decide) (by decide)

/-- C7.  The engine never raises past its boundary: when the ack record set
lacks `Error_Type` or `isError` it is returned unchanged (the soft-fail
no-op), and whenever the rewriting body fails internally the wrapper
returns the original, unmodified record set — callers always receive a
RecordSet. -/
theorem c7_soft_fail_and_error_fallback :
    (∀ ack mdf : RecordSet,
        hasCol ack "Error_Type" = false ∨ hasCol ack "isError" = false →
          apply_error_mapping ack mdf = ack) ∧
    (∀ (ack mdf : RecordSet) (e : String),
        applyErrorMappingBody ack mdf = .error e →
          apply_error_mapping ack mdf = ack) := by
  constructor
  · intro ack mdf h
    rcases h with h | h <;>
      simp [apply_error_mapping, applyErrorMappingBody, h]
  · intro ack mdf e h
    unfold apply_error_mapping
    rw [h]

/-- C7 witness: a record set missing `isError` passes through unchanged, and
a record set whose `Transaction_Reason` column makes the translator raise
(the superscript `"²"`) takes the internal-failure path and also comes back
unchanged. -/
theorem c7_witness :
    apply_error_mapping ⟨["Error_Type"], [["x"]]⟩ ⟨[], []⟩
      = ⟨["Error_Type"], [["x"]]⟩ ∧
    apply_error_mapping
        ⟨["Error_Type", "isError", "Transaction_Reason"], [["E", "TRUE", "²"]]⟩
        ⟨[], []⟩
      = ⟨["Error_Type", "isError", "Transaction_Reason"], [["E", "TRUE", "²"]]⟩ :=
  ⟨c7_soft_fail_and_error_fallback.1 ⟨["Error_Type"], [["x"]]⟩ ⟨[], []⟩
      (Or.inr (by decide)),
   c7_soft_fail_and_error_fallback.2
      ⟨["Error_Type", "isError", "Transaction_Reason"], [["E", "TRUE", "²"]]⟩
      ⟨[], []⟩ "ValueError" (by decide)⟩

/-- C9.  `Source_Filename` materialization: the desired value is
`source_filename + ".csv"` for a non-empty configured name and `""`
otherwise; an absent column is inserted immediately after
`Original_Contract_Number` when that column exists (else appended last) with
the desired value in every row; an existing column is overwritten in every
row; and the end-to-end scenario with `source_filename = "BATCH1"` and an
input having `Original_Contract_Number` but no `Source_Filename` yields a
`Source_Filename` column right after `Original_Contract_Number` holding
`"BATCH1.csv"` in every row. -/
theorem c9_source_filename_materialization :
    (desiredOf "" = "" ∧ ∀ gsf : String, gsf ≠ "" → desiredOf gsf = gsf ++ ".csv") ∧
    (∀ (t : RecordSet) (gsf : String) (i : Nat),
        hasColL t.cols "Source_Filename" = false →
        colIdx t.cols "Original_Contract_Number" = some i →
        sourceFilenameStep t gsf
          = ⟨listInsertAt (i + 1) "Source_Filename" t.cols,
             t.rows.map (fun r => listInsertAt (i + 1) (desiredOf gsf) r)⟩) ∧
    (∀ (t : RecordSet) (gsf : String),
        hasColL t.cols "Source_Filename" = false →
        colIdx t.cols "Original_Contract_Number" = none →
        sourceFilenameStep t gsf
          = setColumn t "Source_Filename" (t.rows.map (fun _ => desiredOf gsf))) ∧
    (∀ (t : RecordSet) (gsf : String),
        hasColL t.cols "Source_Filename" = true →
        sourceFilenameStep t gsf
          = setColumn t "Source_Filename" (t.rows.map (fun _ => desiredOf gsf))) ∧
    process_csv_file ⟨["Original_Contract_Number", "Note"], [["C1", "n"], ["C2", "m"]]⟩
        "BATCH1" false none
      = .ok ⟨["Original_Contract_Number", "Source_Filename", "Note", "Client_Action"],
          [["C1", "BATCH1.csv", "n", ""], ["C2", "BATCH1.csv", "m", ""]]⟩ := by
  refine ⟨⟨by decide, ?_⟩, ?_, ?_, ?_, by decide⟩
  · intro gsf h
    unfold desiredOf
    rw [if_neg (by simpa using h)]
  · intro t gsf i habs hocn
    unfold sourceFilenameStep
    rw [habs, hocn]
    rfl
  · intro t gsf habs hocn
    unfold sourceFilenameStep
    rw [habs, hocn]
    rfl
  · intro t gsf hpres
    unfold sourceFilenameStep
    rw [hpres]
    rfl

/-- C9 witness: the insert-after case, the append case and the overwrite
case of the materialization, each at a concrete record set. -/
theorem c9_witness :
    sourceFilenameStep ⟨["Original_Contract_Number", "X"], [["a", "b"]]⟩ "BATCH1"
      = ⟨listInsertAt 1 "Source_Filename" ["Original_Contract_Number", "X"],
         [["a", "b"]].map (fun r => listInsertAt 1 (desiredOf "BATCH1") r)⟩ ∧
    sourceFilenameStep ⟨["X"], [["b"]]⟩ "BATCH1"
      = setColumn ⟨["X"], [["b"]]⟩ "Source_Filename"
          ([["b"]].map (fun _ => desiredOf "BATCH1")) ∧
    sourceFilenameStep ⟨["Source_Filename"], [["old"]]⟩ ""
      = setColumn ⟨["Source_Filename"], [["old"]]⟩ "Source_Filename"
          ([["old"]].map (fun _ => desiredOf "")) ∧
    desiredOf "BATCH1" = "BATCH1" ++ ".csv" :=
  ⟨c9_source_filename_materialization.2.1 ⟨["Original_Contract_Number", "X"], [["a", "b"]]⟩
      "BATCH1" 0 (by decide) (by decide),
   c9_source_filename_materialization.2.2.1 ⟨["X"], [["b"]]⟩ "BATCH1"
      (by decide) (by decide),
   c9_source_filename_materialization.2.2.2.1 ⟨["Source_Filename"], [["old"]]⟩ ""
      (by decide),
   c9_source_filename_materialization.1.2 "BATCH1" (by decide)⟩

lemma colIdx_lt_length :
    ∀ (cols : List String) (c : String) (i : Nat),
      colIdx cols c = some i → i < cols.length := by
  intro cols
  induction cols with
  | nil => intro c i h; simp [colIdx] at h
  | cons x xs ih =>
      intro c i h
      rw [colIdx] at h
      by_cases hx : (x == c) = true
      · rw [if_pos hx] at h
        cases h
        simp
      · rw [if_neg hx] at h
        rcases Option.map_eq_some'.mp h with ⟨j, hj, hji⟩
        subst hji
        simpa using ih c j hj

lemma colIdx_getD :
    ∀ (cols : List String) (c : String) (i : Nat),
      colIdx cols c = some i → cols.getD i "" = c := by
  intro cols
  induction cols with
  | nil => intro c i h; simp [colIdx] at h
  | cons x xs ih =>
      intro c i h
      rw [colIdx] at h
      by_cases hx : (x == c) = true
      · rw [if_pos hx] at h
        cases h
        simpa using beq_iff_eq.mp hx
      · rw [if_neg hx] at h
        rcases Option.map_eq_some'.mp h with ⟨j, hj, hji⟩
        subst hji
        simpa using ih c j hj

lemma colIdx_injective_names :
    ∀ (cols : List String) (c c' : String) (i j : Nat),
      colIdx cols c = some i → colIdx cols c' = some j → c ≠ c' → i ≠ j := by
  intro cols c c' i j hi hj hne heq
  subst heq
  exact hne ((colIdx_getD cols c i hi).symm.trans (colIdx_getD cols c' i hj))

lemma getCellD_setCell_ne (cols row : List String) (c c' v : String)
    (h : c ≠ c') : getCellD cols (setCell cols row c' v) c = getCellD cols row c := by
  unfold getCellD setCell
  cases hc : colIdx cols c with
  | none => rfl
  | some i =>
      cases hc' : colIdx cols c' with
      | none => rfl
      | some j =>
          have hij : i ≠ j := colIdx_injective_names cols c c' i j hc hc' h
          simp only [List.getD_eq_getElem?_getD]
          rw [List.getElem?_set_ne (by omega)]

lemma isErrorRow_setCell_ne (cols row : List String) (c v : String)
    (h : c ≠ "isError") : isErrorRow cols (setCell cols row c v) = isErrorRow cols row := by
  unfold isErrorRow
  rw [getCellD_setCell_ne cols row "isError" c v (fun he => h he.symm)]

lemma tier1Hit_tier1Update (ce ca : List (String × String)) (cols row : List String) :
    tier1Hit ce cols (tier1Update ce ca cols row) = tier1Hit ce cols row := by
  unfold tier1Update
  by_cases hca : hasColL cols "Client_Action"
  · rw [if_pos hca]
    unfold tier1Hit
    rw [isErrorRow_setCell_ne _ _ _ _ (by decide),
        isErrorRow_setCell_ne _ _ _ _ (by decide),
        getCellD_setCell_ne _ _ _ _ _ (by decide),
        getCellD_setCell_ne _ _ _ _ _ (by decide)]
  · rw [if_neg hca]
    unfold tier1Hit
    rw [isErrorRow_setCell_ne _ _ _ _ (by decide),
        getCellD_setCell_ne _ _ _ _ _ (by decide)]

lemma remainingFlagRow_false (ce : List (String × String)) (cols row : List String) :
    remainingFlagRow false ce cols row = isErrorRow cols row := by
  simp [remainingFlagRow]

lemma hasColL_false_colIdx (cols : List String) (c : String)
    (h : hasColL cols c = false) : colIdx cols c = none := by
  unfold hasColL at h
  exact Option.not_isSome_iff_eq_none.mp (by simp [h])

/-- Tier 2 applied to every error row of the ack file directly (what the
engine boils down to when tier 1 is skipped): each error row whose
`Error_Type` is a simple key is rewritten by `tier2Update`, everything else
is untouched, and the simple dictionaries are only built when some error
row exists. -/
def tier2OnlyResult (ack mdf : RecordSet) : Except String RecordSet :=
  if ack.rows.any (fun r => isErrorRow ack.cols r) then
    match simpleErrPairs mdf, simpleActPairs mdf with
    | .ok se, .ok sa =>
        .ok ⟨ack.cols, ack.rows.map (fun row =>
          if isErrorRow ack.cols row && tier2Hit se ack.cols row then
            tier2Update se sa ack.cols row
          else row)⟩
    | .error e, _ => .error e
    | _, .error e => .error e
  else .ok ack

/-- C8.  Tier-2 scope: rows whose remaining-flag is false are never rewritten
by the tier-2 pass; a tier-1-matched row has a false remaining-flag (its
`isError` and `composite_key` cells are untouched by the tier-1 rewrite, so
the match is still visible afterwards); consequently a row matching both
keys keeps the composite rule's values, tier 2 leaving the tier-1 output
untouched.  When tier 1 is skipped — because the mapping table has no
`file_type_2` column, or because the records produced no
`Transaction_Reason_Text` column — the remaining-flag degenerates to the
error-row test, and the whole engine body equals `tier2OnlyResult`, which
attempts tier 2 against ALL error rows. -/
theorem c8_tier_precedence_and_tier1_absent :
    (∀ (t1 : Bool) (ce se sa : List (String × String)) (cols row : List String),
        remainingFlagRow t1 ce cols row = false →
          tier2Step t1 ce se sa cols row = row) ∧
    (∀ (ce : List (String × String)) (cols row : List String),
        tier1Hit ce cols row = true → remainingFlagRow true ce cols row = false) ∧
    (∀ (ce ca : List (String × String)) (cols row : List String),
        tier1Hit ce cols (tier1Update ce ca cols row) = tier1Hit ce cols row) ∧
    (∀ (ce ca se sa : List (String × String)) (cols row : List String),
        tier1Hit ce cols row = true →
          tier2Step true ce se sa cols (tier1Update ce ca cols row)
            = tier1Update ce ca cols row) ∧
    (∀ (r1 mdf : RecordSet), hasCol mdf "file_type_2" = false →
        stageTier1 r1 mdf = .ok (r1, false, [])) ∧
    (∀ (ce : List (String × String)) (cols row : List String),
        remainingFlagRow false ce cols row = isErrorRow cols row) ∧
    (∀ (ack mdf : RecordSet),
        hasCol ack "Error_Type" = true → hasCol ack "isError" = true →
        hasCol ack "Transaction_Reason" = false →
        hasCol ack "Transaction_Reason_Text" = false →
        hasCol ack "composite_key" = false →
          applyErrorMappingBody ack mdf = tier2OnlyResult ack mdf) := by
  refine ⟨?_, ?_, ?_, ?_, ?_, ?_, ?_⟩
  · intro t1 ce se sa cols row h
    unfold tier2Step
    rw [h]
    rfl
  · intro ce cols row h
    unfold remainingFlagRow
    rw [h]
    simp
  · intro ce ca cols row
    exact tier1Hit_tier1Update ce ca cols row
  · intro ce ca se sa cols row h
    unfold tier2Step
    rw [show remainingFlagRow true ce cols (tier1Update ce ca cols row) = false by
      unfold remainingFlagRow
      rw [tier1Hit_tier1Update, h]
      simp]
    rfl
  · intro r1 mdf h
    unfold stageTier1
    rw [h]
    simp
  · intro ce cols row
    exact remainingFlagRow_false ce cols row
  · intro ack mdf h1 h2 h3 h4 h5
    have hTRT : stageTRT ack = .ok ack := by
      unfold stageTRT
      rw [h3]
      rfl
    have hT1 : stageTier1 ack mdf = .ok (ack, false, []) := by
      unfold stageTier1
      rw [h4]
      rfl
    have hck : colIdx ack.cols "composite_key" = none :=
      hasColL_false_colIdx ack.cols "composite_key" h5
    have htt : colIdx ack.cols "Transaction_Reason_Text" = none :=
      hasColL_false_colIdx ack.cols "Transaction_Reason_Text" h4
    have hdrop : ∀ rows : List (List String),
        dropColumnIfPresent (dropColumnIfPresent ⟨ack.cols, rows⟩ "composite_key")
          "Transaction_Reason_Text" = ⟨ack.cols, rows⟩ := by
      intro rows
      unfold dropColumnIfPresent
      rw [hck]
      dsimp only
      rw [htt]
    unfold applyErrorMappingBody tier2OnlyResult
    rw [h1, h2]
    rw [if_neg (show ¬((!(true && true)) = true) by decide)]
    by_cases hany : (ack.rows.any (fun r => isErrorRow ack.cols r)) = true
    · rw [if_neg (show ¬((!(ack.rows.any (fun r => isErrorRow ack.cols r))) = true) by
        rw [hany]; decide)]
      rw [if_pos hany, hTRT]
      dsimp only
      rw [hT1]
      dsimp only
      unfold stageTier2
      simp only [remainingFlagRow_false]
      rw [if_pos hany]
      cases hse : simpleErrPairs mdf with
      | error e =>
          cases hsa : simpleActPairs mdf with
          | error e2 => rfl
          | ok sa => rfl
      | ok se =>
          cases hsa : simpleActPairs mdf with
          | error e => rfl
          | ok sa =>
              dsimp only
              simp only [tier2Step, remainingFlagRow_false]
              rw [hdrop]
    · rw [Bool.not_eq_true] at hany
      rw [if_pos (show (!(ack.rows.any (fun r => isErrorRow ack.cols r))) = true by
        rw [hany]; decide)]
      rw [if_neg (show ¬((ack.rows.any (fun r => isErrorRow ack.cols r)) = true) by
        rw [hany]; decide)]

/-- C8 witness: a non-remaining row is untouched by tier 2; a row that
tier-1-matched (both keys hit) keeps the tier-1 values through tier 2; a
mapping table without `file_type_2` skips tier 1 entirely; and on a concrete
ack file with no `Transaction_Reason` column the engine body coincides with
`tier2OnlyResult`, tier 2 over all error rows. -/
theorem c8_witness :
    tier2Step false [] [("Z", "C")] [("Z", "A")] ["isError"] ["no"] = ["no"] ∧
    tier2Step true [("E|", "CE")] [("E", "SE")] [("E", "SA")]
        ["Error_Type", "isError", "composite_key", "Client_Action"]
        (tier1Update [("E|", "CE")] [("E|", "CA")]
          ["Error_Type", "isError", "composite_key", "Client_Action"]
          ["E", "TRUE", "E|", "old"])
      = tier1Update [("E|", "CE")] [("E|", "CA")]
          ["Error_Type", "isError", "composite_key", "Client_Action"]
          ["E", "TRUE", "E|", "old"] ∧
    stageTier1 ⟨["Error_Type", "isError"], [["E", "TRUE"]]⟩
        ⟨["Error_Type", "Client_Error_Type", "Client Action"], [["E", "CE", "Act"]]⟩
      = .ok (⟨["Error_Type", "isError"], [["E", "TRUE"]]⟩, false, []) ∧
    applyErrorMappingBody ⟨["Error_Type", "isError"], [["E", "TRUE"]]⟩
        ⟨["Error_Type", "Client_Error_Type", "Client Action"], [["E", "CE", "Act"]]⟩
      = tier2OnlyResult ⟨["Error_Type", "isError"], [["E", "TRUE"]]⟩
          ⟨["Error_Type", "Client_Error_Type", "Client Action"], [["E", "CE", "Act"]]⟩ :=
  ⟨c8_tier_precedence_and_tier1_absent.1 false [] [("Z", "C")] [("Z", "A")]
      ["isError"] ["no"] (by decide),
   c8_tier_precedence_and_tier1_absent.2.2.2.1 [("E|", "CE")] [("E|", "CA")]
      [("E", "SE")] [("E", "SA")]
      ["Error_Type", "isError", "composite_key", "Client_Action"]
      ["E", "TRUE", "E|", "old"] (by decide),
   c8_tier_precedence_and_tier1_absent.2.2.2.2.1
      ⟨["Error_Type", "isError"], [["E", "TRUE"]]⟩
      ⟨["Error_Type", "Client_Error_Type", "Client Action"], [["E", "CE", "Act"]]⟩
      (by decide),
   c8_tier_precedence_and_tier1_absent.2.2.2.2.2.2
      ⟨["Error_Type", "isError"], [["E", "TRUE"]]⟩
      ⟨["Error_Type", "Client_Error_Type", "Client Action"], [["E", "CE", "Act"]]⟩
      (by decide) (by decide) (by decide) (by decide) (by decide)⟩

lemma colIdx_none_iff (cols : List String) (c : String) :
    colIdx cols c = none ↔ c ∉ cols := by
  induction cols with
  | nil => simp [colIdx]
  | cons x xs ih =>
      rw [colIdx]
      by_cases hx : (x == c) = true
      · rw [if_pos hx]
        have : x = c := beq_iff_eq.mp hx
        subst this
        simp
  
      · rw [if_neg hx]
        have hne : x ≠ c := fun he => hx (beq_iff_eq.mpr he)
        simp only [Option.map_eq_none', List.mem_cons]
        rw [ih]
        constructor
        · intro h hc
          rcases hc with hc | hc
          · exact hne hc.symm
          · exact h hc
        · intro h hc
          exact h (Or.inr hc)

lemma colIdx_append_left (A B : List String) (c : String) (i : Nat)
    (h : colIdx A c = some i) : colIdx (A ++ B) c = some i := by
  induction A generalizing i with
  | nil => simp [colIdx] at h
  | cons x xs ih =>
      rw [colIdx] at h
      rw [List.cons_append, colIdx]
      by_cases hx : (x == c) = true
      · rw [if_pos hx] at h ⊢
        exact h
      · rw [if_neg hx] at h ⊢
        rcases Option.map_eq_some'.mp h with ⟨j, hj, hji⟩
        rw [ih j hj]
        simpa using hji

lemma colIdx_append_right (A B : List String) (c : String)
    (h : colIdx A c = none) :
    colIdx (A ++ B) c = (colIdx B c).map (fun i => i + A.length) := by
  induction A with
  | nil => simp [colIdx]
  | cons x xs ih =>
      rw [colIdx] at h
      rw [List.cons_append, colIdx]
      by_cases hx : (x == c) = true
      · rw [if_pos hx] at h
        cases h
      · rw [if_neg hx] at h ⊢
        rw [ih (by simpa using h)]
        cases colIdx B c with
        | none => rfl
        | some j =>
            simp only [Option.map_some', List.length_cons, Option.some.injEq]
            omega

lemma getCellD_append (A B row tail : List String) (c : String)
    (hc : hasColL A c = true) (hrow : row.length = A.length) :
    getCellD (A ++ B) (row ++ tail) c = getCellD A row c := by
  unfold hasColL at hc
  rcases Option.isSome_iff_exists.mp hc with ⟨i, hi⟩
  unfold getCellD
  rw [hi, colIdx_append_left A B c i hi]
  have hlt : i < row.length := hrow ▸ colIdx_lt_length A c i hi
  simp only [List.getD_eq_getElem?_getD]
  rw [List.getElem?_append_left hlt]

lemma isErrorRow_append (A B row tail : List String)
    (hc : hasColL A "isError" = true) (hrow : row.length = A.length) :
    isErrorRow (A ++ B) (row ++ tail) = isErrorRow A row := by
  unfold isErrorRow
  rw [getCellD_append A B row tail "isError" hc hrow]

lemma eraseIdx_append_plus (A : List α) :
    ∀ (l : List α) (j : Nat), (A ++ l).eraseIdx (A.length + j) = A ++ l.eraseIdx j := by
  induction A with
  | nil => intro l j; simp
  | cons x xs ih =>
      intro l j
      rw [List.cons_append, List.length_cons]
      rw [show xs.length + 1 + j = (xs.length + j) + 1 by omega]
      rw [List.eraseIdx_cons_succ, ih l j]
      rfl

lemma eraseIdx_append_left (A B : List α) (i : Nat) (h : i < A.length) :
    (A ++ B).eraseIdx i = A.eraseIdx i ++ B := by
  induction A generalizing i with
  | nil => simp at h
  | cons x xs ih =>
      cases i with
      | zero => simp
      | succ n =>
          rw [List.cons_append, List.eraseIdx_cons_succ, List.eraseIdx_cons_succ,
              ih n (by simpa using Nat.lt_of_succ_lt_succ h)]
          rfl

lemma zip_self_map (l : List α) (g : α → β) (h : α → β → γ) :
    ((l.zip (l.map g)).map (fun rv => h rv.1 rv.2)) = l.map (fun x => h x (g x)) := by
  induction l with
  | nil => rfl
  | cons x xs ih => simp only [List.map_cons, List.zip_cons_cons, ih]

lemma mapM_ok_eq_map (f : α → Except String β) (d : β) :
    ∀ (l : List α) (v : List β), l.mapM f = .ok v →
      v = l.map (fun x => ((f x).toOption).getD d) := by
  intro l
  induction l with
  | nil =>
      intro v h
      simp only [List.mapM_nil, pure, Except.pure] at h
      cases h
      rfl
  | cons x xs ih =>
      intro v h
      rw [List.mapM_cons] at h
      cases hx : f x with
      | error e => rw [hx] at h; simp [bind, Except.bind] at h
      | ok y =>
          rw [hx] at h
          simp only [bind, Except.bind] at h
          cases hxs : xs.mapM f with
          | error e => rw [hxs] at h; simp [pure, Except.pure] at h
          | ok ys =>
              rw [hxs] at h
              simp only [pure, Except.pure, Except.ok.injEq] at h
              subst h
              rw [List.map_cons, ← ih ys hxs, hx]
              rfl

lemma dropColumn_cols_sublist (t : RecordSet) (c : String) :
    List.Sublist (dropColumnIfPresent t c).cols t.cols := by
  unfold dropColumnIfPresent
  cases h : colIdx t.cols c with
  | none => exact List.Sublist.refl _
  | some i => exact List.eraseIdx_sublist t.cols i

lemma dropColumn_appended (X : List String) (rows : List (List String)) (c : String)
    (h : colIdx X c = none) :
    dropColumnIfPresent ⟨X ++ [c], rows⟩ c
      = ⟨X, rows.map (fun r => r.eraseIdx X.length)⟩ := by
  unfold dropColumnIfPresent
  have hidx : colIdx (X ++ [c]) c = some X.length := by
    rw [colIdx_append_right X [c] c h]
    simp [colIdx]
  rw [hidx]
  dsimp only
  congr 1
  rw [show X.length = X.length + 0 by omega, eraseIdx_append_plus X [c] 0]
  simp

lemma dropColumn_absent (t : RecordSet) (c : String)
    (h : colIdx t.cols c = none) : dropColumnIfPresent t c = t := by
  unfold dropColumnIfPresent
  rw [h]

lemma dropColumn_absent2 (cols : List String) (rows : List (List String)) (c : String)
    (h : colIdx cols c = none) :
    dropColumnIfPresent ⟨cols, rows⟩ c = ⟨cols, rows⟩ := by
  unfold dropColumnIfPresent
  rw [h]

lemma tier1Step_nonerror (ce ca : List (String × String)) (cols row : List String)
    (h : isErrorRow cols row = false) : tier1Step ce ca cols row = row := by
  simp [tier1Step, tier1Hit, h]

lemma tier2Step_nonerror (t1 : Bool) (ce se sa : List (String × String))
    (cols row : List String) (h : isErrorRow cols row = false) :
    tier2Step t1 ce se sa cols row = row := by
  simp [tier2Step, remainingFlagRow, h]

lemma setColumn_absent (t : RecordSet) (c : String) (vals : List String)
    (h : colIdx t.cols c = none) :
    setColumn t c vals = ⟨t.cols ++ [c], (t.rows.zip vals).map (fun rv => rv.1 ++ [rv.2])⟩ := by
  unfold setColumn
  rw [h]

lemma erase_one_appended (row : List String) (a : String) :
    (row ++ [a]).eraseIdx row.length = row := by
  have := eraseIdx_append_plus row [a] 0
  simpa using this

lemma erase_two_appended (row : List String) (a b : String) :
    ((row ++ [a, b]).eraseIdx (row.length + 1)).eraseIdx row.length = row := by
  have h1 := eraseIdx_append_plus row [a, b] 1
  simp only [List.eraseIdx] at h1
  rw [h1]
  exact erase_one_appended row a

lemma colIdx_append_none (A B : List String) (c : String)
    (h1 : colIdx A c = none) (h2 : colIdx B c = none) :
    colIdx (A ++ B) c = none := by
  rw [colIdx_append_right A B c h1, h2]
  rfl

lemma hasColL_append_self (A : List String) (x : String)
    (h : colIdx A x = none) : hasColL (A ++ [x]) x = true := by
  unfold hasColL
  rw [colIdx_append_right A [x] x h]
  simp [colIdx]

/-- The value the transient `Transaction_Reason_Text` column receives in a
row (after a successful `.apply`): the translated reason, viewed totally. -/
def trtValue (cols row : List String) : String :=
  ((get_transaction_reason_text (.pstr (getCellD cols row "Transaction_Reason"))).toOption).getD ""

lemma hasColL_append_left (A B : List String) (c : String)
    (h : hasColL A c = true) : hasColL (A ++ B) c = true := by
  unfold hasColL at h ⊢
  rcases Option.isSome_iff_exists.mp h with ⟨i, hi⟩
  rw [colIdx_append_left A B c i hi]
  rfl

lemma body_c6_p3 (ack mdf out : RecordSet) (ce ca : List (String × String))
    (hbody : applyErrorMappingBody ack mdf = .ok out)
    (hc1 : ¬((!(hasCol ack "Error_Type" && hasCol ack "isError")) = true))
    (hc2 : ¬((!(ack.rows.any (fun r => isErrorRow ack.cols r))) = true))
    (hIE : hasColL ack.cols "isError" = true)
    (hlen : ∀ r ∈ ack.rows, r.length = ack.cols.length)
    (httA : colIdx ack.cols "Transaction_Reason_Text" = none)
    (hckT : colIdx (ack.cols ++ ["Transaction_Reason_Text"]) "composite_key" = none)
    (hrow_ext1 : ∀ (row tail : List String), row ∈ ack.rows →
        isErrorRow ack.cols row = false →
        isErrorRow (ack.cols ++ ["Transaction_Reason_Text"] : List String)
          (row ++ tail) = false)
    (hS1 : stageTRT ack
        = .ok ⟨ack.cols ++ ["Transaction_Reason_Text"],
            ack.rows.map (fun r => r ++ [trtValue ack.cols r])⟩)
    (hS2 : stageTier1
        ⟨ack.cols ++ ["Transaction_Reason_Text"],
          ack.rows.map (fun r => r ++ [trtValue ack.cols r])⟩ mdf
        = .ok (⟨(ack.cols ++ ["Transaction_Reason_Text"]) ++ ["composite_key"],
            ((ack.rows.map (fun r => r ++ [trtValue ack.cols r])).map
              (fun rr => rr ++ [ackCompositeKey
                (ack.cols ++ ["Transaction_Reason_Text"]) rr])).map
              (fun row => tier1Step ce ca
                ((ack.cols ++ ["Transaction_Reason_Text"]) ++ ["composite_key"]) row)⟩,
            true, ce)) :
    out.cols = ack.cols ∧
    (∀ (i : Nat) (row : List String), ack.rows.get? i = some row →
      isErrorRow ack.cols row = false → out.rows.get? i = some row) := by
  have hIE2 : hasColL (ack.cols ++ ["Transaction_Reason_Text"]) "isError" = true :=
    hasColL_append_left _ _ _ hIE
  have hErr2 : ∀ (row : List String), row ∈ ack.rows →
      isErrorRow ack.cols row = false →
      isErrorRow ((ack.cols ++ ["Transaction_Reason_Text"]) ++ ["composite_key"])
        ((row ++ [trtValue ack.cols row]) ++ [ackCompositeKey
          (ack.cols ++ ["Transaction_Reason_Text"]) (row ++ [trtValue ack.cols row])])
        = false := by
    intro row hmem hrow
    rw [isErrorRow_append (ack.cols ++ ["Transaction_Reason_Text"]) _ _ _ hIE2
      (by simp [hlen row hmem])]
    exact hrow_ext1 row [trtValue ack.cols row] hmem hrow
  -- the two cleanup drops, shared by both tier-2 gate branches
  have hdrops : ∀ rows3 : List (List String),
      dropColumnIfPresent (dropColumnIfPresent
        ⟨(ack.cols ++ ["Transaction_Reason_Text"]) ++ ["composite_key"], rows3⟩
        "composite_key") "Transaction_Reason_Text"
      = ⟨ack.cols, (rows3.map (fun r =>
          r.eraseIdx (ack.cols ++ ["Transaction_Reason_Text"]).length)).map
          (fun r => r.eraseIdx ack.cols.length)⟩ := by
    intro rows3
    rw [dropColumn_appended _ _ _ hckT, dropColumn_appended _ _ _ httA]
  by_cases hgate : ((((ack.rows.map (fun r => r ++ [trtValue ack.cols r])).map
      (fun rr => rr ++ [ackCompositeKey (ack.cols ++ ["Transaction_Reason_Text"]) rr])).map
      (fun row => tier1Step ce ca
        ((ack.cols ++ ["Transaction_Reason_Text"]) ++ ["composite_key"]) row)).any
      (fun row => remainingFlagRow true ce
        ((ack.cols ++ ["Transaction_Reason_Text"]) ++ ["composite_key"]) row)) = true
  case pos =>
    cases hse : simpleErrPairs mdf with
    | error e =>
        have hbeq : applyErrorMappingBody ack mdf = .error e := by
          unfold applyErrorMappingBody
          rw [if_neg hc1, if_neg hc2, hS1]
          dsimp only
          rw [hS2]
          dsimp only
          unfold stageTier2
          rw [if_pos hgate, hse]
          cases hsa : simpleActPairs mdf <;> rfl
        rw [hbeq] at hbody
        cases hbody
    | ok se =>
        cases hsa : simpleActPairs mdf with
        | error e =>
            have hbeq : applyErrorMappingBody ack mdf = .error e := by
              unfold applyErrorMappingBody
              rw [if_neg hc1, if_neg hc2, hS1]
              dsimp only
              rw [hS2]
              dsimp only
              unfold stageTier2
              rw [if_pos hgate, hse, hsa]
            rw [hbeq] at hbody
            cases hbody
        | ok sa =>
            have hbeq : applyErrorMappingBody ack mdf
                = .ok (dropColumnIfPresent (dropColumnIfPresent
                    ⟨(ack.cols ++ ["Transaction_Reason_Text"]) ++ ["composite_key"],
                      (((ack.rows.map (fun r => r ++ [trtValue ack.cols r])).map
                        (fun rr => rr ++ [ackCompositeKey
                          (ack.cols ++ ["Transaction_Reason_Text"]) rr])).map
                        (fun row => tier1Step ce ca
                          ((ack.cols ++ ["Transaction_Reason_Text"]) ++ ["composite_key"])
                          row)).map
                        (fun row => tier2Step true ce se sa
                          ((ack.cols ++ ["Transaction_Reason_Text"]) ++ ["composite_key"])
                          row)⟩
                    "composite_key") "Transaction_Reason_Text") := by
              unfold applyErrorMappingBody
              rw [if_neg hc1, if_neg hc2, hS1]
              dsimp only
              rw [hS2]
              dsimp only
              unfold stageTier2
              rw [if_pos hgate, hse, hsa]
            rw [hbeq, Except.ok.injEq] at hbody
            subst hbody
            rw [hdrops]
            refine ⟨rfl, ?_⟩
            intro i row hget hrow
            have hmem : row ∈ ack.rows := List.get?_mem hget
            dsimp only
            rw [List.get?_map, List.get?_map, List.get?_map, List.get?_map,
                List.get?_map, List.get?_map, hget]
            simp only [Option.map_some']
            rw [tier1Step_nonerror _ _ _ _ (hErr2 row hmem hrow),
                tier2Step_nonerror _ _ _ _ _ _ (hErr2 row hmem hrow)]
            rw [show ((ack.cols ++ ["Transaction_Reason_Text"]).length)
                = row.length + 1 by simp [hlen row hmem]]
            rw [show ack.cols.length = row.length from (hlen row hmem).symm]
            rw [List.append_assoc]
            exact congrArg some (erase_two_appended row _ _)
  case neg =>
    have hbeq : applyErrorMappingBody ack mdf
        = .ok (dropColumnIfPresent (dropColumnIfPresent
            ⟨(ack.cols ++ ["Transaction_Reason_Text"]) ++ ["composite_key"],
              ((ack.rows.map (fun r => r ++ [trtValue ack.cols r])).map
                (fun rr => rr ++ [ackCompositeKey
                  (ack.cols ++ ["Transaction_Reason_Text"]) rr])).map
                (fun row => tier1Step ce ca
                  ((ack.cols ++ ["Transaction_Reason_Text"]) ++ ["composite_key"]) row)⟩
            "composite_key") "Transaction_Reason_Text") := by
      unfold applyErrorMappingBody
      rw [if_neg hc1, if_neg hc2, hS1]
      dsimp only
      rw [hS2]
      dsimp only
      unfold stageTier2
      rw [if_neg hgate]
    rw [hbeq, Except.ok.injEq] at hbody
    subst hbody
    rw [hdrops]
    refine ⟨rfl, ?_⟩
    intro i row hget hrow
    have hmem : row ∈ ack.rows := List.get?_mem hget
    dsimp only
    rw [List.get?_map, List.get?_map, List.get?_map, List.get?_map,
        List.get?_map, hget]
    simp only [Option.map_some']
    rw [tier1Step_nonerror _ _ _ _ (hErr2 row hmem hrow)]
    rw [show ((ack.cols ++ ["Transaction_Reason_Text"]).length)
        = row.length + 1 by simp [hlen row hmem]]
    rw [show ack.cols.length = row.length from (hlen row hmem).symm]
    rw [List.append_assoc]
    exact congrArg some (erase_two_appended row _ _)

lemma body_c6 (ack mdf : RecordSet)
    (hck : hasCol ack "composite_key" = false)
    (htt : hasCol ack "Transaction_Reason_Text" = false)
    (hlen : ∀ r ∈ ack.rows, r.length = ack.cols.length) :
    ∀ out : RecordSet, applyErrorMappingBody ack mdf = .ok out →
      out.cols = ack.cols ∧
      (∀ (i : Nat) (row : List String), ack.rows.get? i = some row →
        isErrorRow ack.cols row = false → out.rows.get? i = some row) := by
  intro out hbody
  have hckA : colIdx ack.cols "composite_key" = none := hasColL_false_colIdx _ _ hck
  have httA : colIdx ack.cols "Transaction_Reason_Text" = none :=
    hasColL_false_colIdx _ _ htt
  by_cases h1 : (hasCol ack "Error_Type" && hasCol ack "isError") = true
  case neg =>
    rw [Bool.not_eq_true] at h1
    unfold applyErrorMappingBody at hbody
    rw [if_pos (show (!(hasCol ack "Error_Type" && hasCol ack "isError")) = true by
      rw [h1]; rfl)] at hbody
    rw [Except.ok.injEq] at hbody
    subst hbody
    exact ⟨rfl, fun i row hget _ => hget⟩
  case pos =>
    have hIE : hasColL ack.cols "isError" = true := by
      have h1' := h1
      rw [Bool.and_eq_true] at h1'
      exact h1'.2
    have hc1 : ¬((!(hasCol ack "Error_Type" && hasCol ack "isError")) = true) := by
      rw [h1]; decide
    by_cases hany : (ack.rows.any (fun r => isErrorRow ack.cols r)) = true
    case neg =>
      rw [Bool.not_eq_true] at hany
      unfold applyErrorMappingBody at hbody
      rw [if_neg hc1,
          if_pos (show (!(ack.rows.any (fun r => isErrorRow ack.cols r))) = true by
            rw [hany]; rfl)] at hbody
      rw [Except.ok.injEq] at hbody
      subst hbody
      exact ⟨rfl, fun i row hget _ => hget⟩
    case pos =>
      have hc2 : ¬((!(ack.rows.any (fun r => isErrorRow ack.cols r))) = true) := by
        rw [hany]; decide
      by_cases hTR : hasCol ack "Transaction_Reason" = true
      case neg =>
        -- P1: no Transaction_Reason column; tier 1 cannot run.
        rw [Bool.not_eq_true] at hTR
        have hS1 : stageTRT ack = .ok ack := by
          unfold stageTRT
          rw [hTR]
          rfl
        have hS2 : stageTier1 ack mdf = .ok (ack, false, []) := by
          unfold stageTier1
          rw [show hasCol ack "Transaction_Reason_Text" = false from htt]
          rfl
        have hgate : (ack.rows.any (fun row => remainingFlagRow false [] ack.cols row))
            = true := by
          simp only [remainingFlagRow_false]
          exact hany
        cases hse : simpleErrPairs mdf with
        | error e =>
            have hbeq : applyErrorMappingBody ack mdf = .error e := by
              unfold applyErrorMappingBody
              rw [if_neg hc1, if_neg hc2, hS1]
              dsimp only
              rw [hS2]
              dsimp only
              unfold stageTier2
              rw [if_pos hgate, hse]
              cases hsa : simpleActPairs mdf <;> rfl
            rw [hbeq] at hbody
            cases hbody
        | ok se =>
            cases hsa : simpleActPairs mdf with
            | error e =>
                have hbeq : applyErrorMappingBody ack mdf = .error e := by
                  unfold applyErrorMappingBody
                  rw [if_neg hc1, if_neg hc2, hS1]
                  dsimp only
                  rw [hS2]
                  dsimp only
                  unfold stageTier2
                  rw [if_pos hgate, hse, hsa]
                rw [hbeq] at hbody
                cases hbody
            | ok sa =>
                have hbeq : applyErrorMappingBody ack mdf
                    = .ok ⟨ack.cols, ack.rows.map
                        (fun row => tier2Step false [] se sa ack.cols row)⟩ := by
                  unfold applyErrorMappingBody
                  rw [if_neg hc1, if_neg hc2, hS1]
                  dsimp only
                  rw [hS2]
                  dsimp only
                  unfold stageTier2
                  rw [if_pos hgate, hse, hsa]
                  dsimp only
                  rw [dropColumn_absent2 ack.cols _ _ hckA,
                      dropColumn_absent2 ack.cols _ _ httA]
                rw [hbeq, Except.ok.injEq] at hbody
                subst hbody
                refine ⟨rfl, ?_⟩
                intro i row hget hrow
                dsimp only
                rw [List.get?_map, hget, Option.map_some']
                rw [tier2Step_nonerror false [] se sa ack.cols row hrow]
      case pos =>
        -- Transaction_Reason exists: the transient reason-text column is added.
        cases hmap : ack.rows.mapM (fun row =>
            get_transaction_reason_text (.pstr (getCellD ack.cols row "Transaction_Reason"))) with
        | error e =>
            have hbeq : applyErrorMappingBody ack mdf = .error e := by
              unfold applyErrorMappingBody
              rw [if_neg hc1, if_neg hc2]
              unfold stageTRT
              rw [hTR, hmap]
              rfl
            rw [hbeq] at hbody
            cases hbody
        | ok vals =>
            have hvals : vals = ack.rows.map (fun r => trtValue ack.cols r) :=
              mapM_ok_eq_map _ "" ack.rows vals hmap
            have hS1 : stageTRT ack
                = .ok ⟨ack.cols ++ ["Transaction_Reason_Text"],
                    ack.rows.map (fun r => r ++ [trtValue ack.cols r])⟩ := by
              unfold stageTRT
              rw [hTR, hmap]
              dsimp only
              rw [setColumn_absent ack _ vals httA]
              rw [hvals, zip_self_map ack.rows (fun r => trtValue ack.cols r)
                (fun x y => x ++ [y])]
              rfl
            have hTcolsEq : (⟨ack.cols ++ ["Transaction_Reason_Text"],
                ack.rows.map (fun r => r ++ [trtValue ack.cols r])⟩ : RecordSet).cols
                = ack.cols ++ ["Transaction_Reason_Text"] := rfl
            have httIn : hasColL (ack.cols ++ ["Transaction_Reason_Text"])
                "Transaction_Reason_Text" = true :=
              hasColL_append_self ack.cols _ httA
            have hckT : colIdx (ack.cols ++ ["Transaction_Reason_Text"])
                "composite_key" = none :=
              colIdx_append_none _ _ _ hckA (by decide)
            have hrow_ext1 : ∀ (row tail : List String), row ∈ ack.rows →
                isErrorRow ack.cols row = false →
                isErrorRow (ack.cols ++ ["Transaction_Reason_Text"] : List String)
                  (row ++ tail) = false := by
              intro row tail hmem hrow
              rw [isErrorRow_append ack.cols _ row tail hIE (hlen row hmem)]
              exact hrow
            by_cases hft : hasCol mdf "file_type_2" = true
            case neg =>
              -- P2: tier 1 skipped because the table lacks file_type_2.
              rw [Bool.not_eq_true] at hft
              have hS2 : stageTier1
                  ⟨ack.cols ++ ["Transaction_Reason_Text"],
                    ack.rows.map (fun r => r ++ [trtValue ack.cols r])⟩ mdf
                  = .ok (⟨ack.cols ++ ["Transaction_Reason_Text"],
                      ack.rows.map (fun r => r ++ [trtValue ack.cols r])⟩, false, []) := by
                unfold stageTier1
                rw [show hasCol mdf "file_type_2" = false from hft]
                simp only [Bool.and_false]
                rfl
              by_cases hgate : ((ack.rows.map (fun r => r ++ [trtValue ack.cols r])).any
                  (fun row => remainingFlagRow false []
                    (ack.cols ++ ["Transaction_Reason_Text"]) row)) = true
              case pos =>
                cases hse : simpleErrPairs mdf with
                | error e =>
                    have hbeq : applyErrorMappingBody ack mdf = .error e := by
                      unfold applyErrorMappingBody
                      rw [if_neg hc1, if_neg hc2, hS1]
                      dsimp only
                      rw [hS2]
                      dsimp only
                      unfold stageTier2
                      rw [if_pos hgate, hse]
                      cases hsa : simpleActPairs mdf <;> rfl
                    rw [hbeq] at hbody
                    cases hbody
                | ok se =>
                    cases hsa : simpleActPairs mdf with
                    | error e =>
                        have hbeq : applyErrorMappingBody ack mdf = .error e := by
                          unfold applyErrorMappingBody
                          rw [if_neg hc1, if_neg hc2, hS1]
                          dsimp only
                          rw [hS2]
                          dsimp only
                          unfold stageTier2
                          rw [if_pos hgate, hse, hsa]
                        rw [hbeq] at hbody
                        cases hbody
                    | ok sa =>
                        have hbeq : applyErrorMappingBody ack mdf
                            = .ok (dropColumnIfPresent (dropColumnIfPresent
                                ⟨ack.cols ++ ["Transaction_Reason_Text"],
                                  (ack.rows.map (fun r => r ++ [trtValue ack.cols r])).map
                                    (fun row => tier2Step false [] se sa
                                      (ack.cols ++ ["Transaction_Reason_Text"]) row)⟩
                                "composite_key") "Transaction_Reason_Text") := by
                          unfold applyErrorMappingBody
                          rw [if_neg hc1, if_neg hc2, hS1]
                          dsimp only
                          rw [hS2]
                          dsimp only
                          unfold stageTier2
                          rw [if_pos hgate, hse, hsa]
                        rw [hbeq, Except.ok.injEq] at hbody
                        subst hbody
                        rw [dropColumn_absent2 (ack.cols ++ ["Transaction_Reason_Text"]) _ _ hckT,
                            dropColumn_appended ack.cols _ _ httA]
                        refine ⟨rfl, ?_⟩
                        intro i row hget hrow
                        have hmem : row ∈ ack.rows := List.get?_mem hget
                        dsimp only
                        rw [List.get?_map, List.get?_map, List.get?_map, hget]
                        simp only [Option.map_some']
                        rw [tier2Step_nonerror false [] se sa _ _
                          (hrow_ext1 row [trtValue ack.cols row] hmem hrow)]
                        rw [show ack.cols.length = row.length from (hlen row hmem).symm,
                            erase_one_appended]
              case neg =>
                rw [Bool.not_eq_true] at hgate
                have hbeq : applyErrorMappingBody ack mdf
                    = .ok (dropColumnIfPresent (dropColumnIfPresent
                        ⟨ack.cols ++ ["Transaction_Reason_Text"],
                          ack.rows.map (fun r => r ++ [trtValue ack.cols r])⟩
                        "composite_key") "Transaction_Reason_Text") := by
                  unfold applyErrorMappingBody
                  rw [if_neg hc1, if_neg hc2, hS1]
                  dsimp only
                  rw [hS2]
                  dsimp only
                  unfold stageTier2
                  rw [if_neg (show ¬(((ack.rows.map (fun r =>
                      r ++ [trtValue ack.cols r])).any
                      (fun row => remainingFlagRow false []
                        (ack.cols ++ ["Transaction_Reason_Text"]) row)) = true) by
                    rw [hgate]; decide)]
                rw [hbeq, Except.ok.injEq] at hbody
                subst hbody
                rw [dropColumn_absent2 (ack.cols ++ ["Transaction_Reason_Text"]) _ _ hckT,
                    dropColumn_appended ack.cols _ _ httA]
                refine ⟨rfl, ?_⟩
                intro i row hget hrow
                have hmem : row ∈ ack.rows := List.get?_mem hget
                dsimp only
                rw [List.get?_map, List.get?_map, hget]
                simp only [Option.map_some']
                rw [show ack.cols.length = row.length from (hlen row hmem).symm,
                    erase_one_appended]
            case pos =>
              -- P3: tier 1 runs; the transient composite_key column is added.
              cases hce : compositeErrPairs mdf with
              | error e =>
                  have hbeq : applyErrorMappingBody ack mdf = .error e := by
                    unfold applyErrorMappingBody
                    rw [if_neg hc1, if_neg hc2, hS1]
                    dsimp only
                    unfold stageTier1
                    rw [show hasCol (⟨ack.cols ++ ["Transaction_Reason_Text"],
                        ack.rows.map (fun r => r ++ [trtValue ack.cols r])⟩ : RecordSet)
                        "Transaction_Reason_Text" = true from httIn, hft, hce]
                    cases hca : compositeActPairs mdf <;> rfl
                  rw [hbeq] at hbody
                  cases hbody
              | ok ce =>
                  cases hca : compositeActPairs mdf with
                  | error e =>
                      have hbeq : applyErrorMappingBody ack mdf = .error e := by
                        unfold applyErrorMappingBody
                        rw [if_neg hc1, if_neg hc2, hS1]
                        dsimp only
                        unfold stageTier1
                        rw [show hasCol (⟨ack.cols ++ ["Transaction_Reason_Text"],
                            ack.rows.map (fun r => r ++ [trtValue ack.cols r])⟩ : RecordSet)
                            "Transaction_Reason_Text" = true from httIn, hft, hce, hca]
                        rfl
                      rw [hbeq] at hbody
                      cases hbody
                  | ok ca =>
                      have hS2 : stageTier1
                          ⟨ack.cols ++ ["Transaction_Reason_Text"],
                            ack.rows.map (fun r => r ++ [trtValue ack.cols r])⟩ mdf
                          = .ok (⟨(ack.cols ++ ["Transaction_Reason_Text"]) ++ ["composite_key"],
                              ((ack.rows.map (fun r => r ++ [trtValue ack.cols r])).map
                                (fun rr => rr ++ [ackCompositeKey
                                  (ack.cols ++ ["Transaction_Reason_Text"]) rr])).map
                                (fun row => tier1Step ce ca
                                  ((ack.cols ++ ["Transaction_Reason_Text"]) ++ ["composite_key"])
                                  row)⟩, true, ce) := by
                        unfold stageTier1
                        rw [show hasCol (⟨ack.cols ++ ["Transaction_Reason_Text"],
                            ack.rows.map (fun r => r ++ [trtValue ack.cols r])⟩ : RecordSet)
                            "Transaction_Reason_Text" = true from httIn, hft, hce, hca]
                        dsimp only
                        rw [setColumn_absent _ _ _ hckT]
                        rw [zip_self_map _ (fun rr => ackCompositeKey
                          (ack.cols ++ ["Transaction_Reason_Text"]) rr) (fun x y => x ++ [y])]
                        rfl
                      exact body_c6_p3 ack mdf out ce ca hbody hc1 hc2 hIE hlen httA hckT
                        hrow_ext1 hS1 hS2

/-- C6 counterexample.  An input that happens to contain a column literally
named `composite_key` loses that column in the engine's output: the cleanup
`df.drop(columns=["composite_key"])` runs whenever the column is present,
whether or not the engine introduced it.  The non-error row `["F", "false",
"keep"]` does not reappear with all its cells — its `composite_key` cell
`"keep"` is gone — refuting the universally quantified pass-through claim. -/
theorem c6_counterexample_input_transient_name_dropped :
    apply_error_mapping
        ⟨["Error_Type", "isError", "composite_key"],
          [["E", "TRUE", "x"], ["F", "false", "keep"]]⟩
        ⟨["Error_Type", "Client_Error_Type", "Client Action"], [["Z", "CZ", "AZ"]]⟩
      = ⟨["Error_Type", "isError"], [["E", "TRUE"], ["F", "false"]]⟩ ∧
    isErrorRow ["Error_Type", "isError", "composite_key"] ["F", "false", "keep"] = false ∧
    getCellD ["Error_Type", "isError", "composite_key"] ["F", "false", "keep"]
        "composite_key" = "keep" ∧
    hasColL ["Error_Type", "isError"] "composite_key" = false := by
  refine ⟨by decide, by decide, by decide, by decide⟩

/-- C6 amended.  For every ack record set whose columns do not include the
transient names `composite_key` and `Transaction_Reason_Text` (and whose
rows match its schema), the engine preserves the column list, its output
contains no transient column, and every non-error row (isError not
case-insensitively `"TRUE"`) reappears at its position with every cell value
exactly equal to its input value.  When the input itself uses a transient
name, that column is dropped file-wide instead. -/
theorem c6_amended_nonerror_rows_pass_through :
    ∀ (ack mdf : RecordSet),
      hasCol ack "composite_key" = false →
      hasCol ack "Transaction_Reason_Text" = false →
      (∀ r ∈ ack.rows, r.length = ack.cols.length) →
      (apply_error_mapping ack mdf).cols = ack.cols ∧
      hasCol (apply_error_mapping ack mdf) "composite_key" = false ∧
      hasCol (apply_error_mapping ack mdf) "Transaction_Reason_Text" = false ∧
      (∀ (i : Nat) (row : List String), ack.rows.get? i = some row →
        isErrorRow ack.cols row = false →
        (apply_error_mapping ack mdf).rows.get? i = some row) := by
  intro ack mdf hck htt hlen
  unfold apply_error_mapping
  cases hbody : applyErrorMappingBody ack mdf with
  | error e => exact ⟨rfl, hck, htt, fun i row hget _ => hget⟩
  | ok out =>
      obtain ⟨hcols, hrows⟩ := body_c6 ack mdf hck htt hlen out hbody
      refine ⟨hcols, ?_, ?_, hrows⟩
      · unfold hasCol at hck ⊢
        rw [hcols]
        exact hck
      · unfold hasCol at htt ⊢
        rw [hcols]
        exact htt

/-- C6 witness: the amended statement at a concrete two-row file (one error
row, one non-error row) with a mapping table that rewrites the error row. -/
theorem c6_amended_witness :
    (apply_error_mapping
        ⟨["Error_Type", "isError", "Transaction_Reason"],
          [["E", "TRUE", "1"], ["F", "false", "2"]]⟩
        ⟨["Error_Type", "Client_Error_Type", "Client Action"],
          [["E", "CE", "Act"]]⟩).cols
      = ["Error_Type", "isError", "Transaction_Reason"] ∧
    (apply_error_mapping
        ⟨["Error_Type", "isError", "Transaction_Reason"],
          [["E", "TRUE", "1"], ["F", "false", "2"]]⟩
        ⟨["Error_Type", "Client_Error_Type", "Client Action"],
          [["E", "CE", "Act"]]⟩).rows.get? 1
      = some ["F", "false", "2"] := by
  have h := c6_amended_nonerror_rows_pass_through
    ⟨["Error_Type", "isError", "Transaction_Reason"],
      [["E", "TRUE", "1"], ["F", "false", "2"]]⟩
    ⟨["Error_Type", "Client_Error_Type", "Client Action"], [["E", "CE", "Act"]]⟩
    (by decide) (by decide) (by decide)
  exact ⟨h.1, h.2.2.2 1 ["F", "false", "2"] (by decide) (by decide)⟩

lemma exists_map_comp {rows1 rows2 rows3 : List (List String)}
    (h1 : ∃ f, rows2 = rows1.map f) (h2 : ∃ g, rows3 = rows2.map g) :
    ∃ h, rows3 = rows1.map h := by
  obtain ⟨f, hf⟩ := h1
  obtain ⟨g, hg⟩ := h2
  exact ⟨g ∘ f, by rw [hg, hf, List.map_map]⟩

lemma exists_map_id (rows : List (List String)) : ∃ f, rows = rows.map f :=
  ⟨id, by rw [List.map_id]⟩

lemma dropColumn_rows_map (t : RecordSet) (c : String) :
    ∃ f, (dropColumnIfPresent t c).rows = t.rows.map f := by
  unfold dropColumnIfPresent
  cases colIdx t.cols c with
  | none => exact exists_map_id t.rows
  | some i => exact ⟨fun r => r.eraseIdx i, rfl⟩

lemma setColumn_rows_map (t : RecordSet) (c : String) (g : List String → String) :
    ∃ f, (setColumn t c (t.rows.map g)).rows = t.rows.map f := by
  unfold setColumn
  cases colIdx t.cols c with
  | some i =>
      exact ⟨fun r => r.set i (g r), by
        dsimp only
        rw [zip_self_map t.rows g (fun x y => x.set i y)]⟩
  | none =>
      exact ⟨fun r => r ++ [g r], by
        dsimp only
        rw [zip_self_map t.rows g (fun x y => x ++ [y])]⟩

lemma foldDrop_rows_map (cs : List String) :
    ∀ t : RecordSet,
      ∃ f, (cs.foldl (fun acc c => dropColumnIfPresent acc c) t).rows = t.rows.map f := by
  induction cs with
  | nil => intro t; exact exists_map_id t.rows
  | cons c cs ih =>
      intro t
      rw [List.foldl_cons]
      exact exists_map_comp (dropColumn_rows_map t c) (ih (dropColumnIfPresent t c))

lemma dropGeneralStep_rows_map (t : RecordSet) :
    ∃ f, (dropGeneralStep t).rows = t.rows.map f :=
  foldDrop_rows_map columnsToDropGeneral t

lemma sourceFilenameStep_rows_map (t : RecordSet) (gsf : String) :
    ∃ f, (sourceFilenameStep t gsf).rows = t.rows.map f := by
  unfold sourceFilenameStep
  by_cases h : hasColL t.cols "Source_Filename" = true
  · rw [h]
    dsimp only
    exact setColumn_rows_map t "Source_Filename" (fun _ => desiredOf gsf)
  · rw [Bool.not_eq_true] at h
    rw [h]
    dsimp only
    cases colIdx t.cols "Original_Contract_Number" with
    | some i => exact ⟨fun r => listInsertAt (i + 1) (desiredOf gsf) r, rfl⟩
    | none => exact setColumn_rows_map t "Source_Filename" (fun _ => desiredOf gsf)

lemma cosignClearStep_rows_map (t : RecordSet) :
    ∃ f, (cosignClearStep t).rows = t.rows.map f := by
  unfold cosignClearStep
  generalize COSIGN_PII_COLUMNS = cs
  induction cs generalizing t with
  | nil => exact exists_map_id t.rows
  | cons c cs ih =>
      rw [List.foldl_cons]
      by_cases h : hasColL t.cols c = true
      · rw [if_pos h]
        exact exists_map_comp ⟨fun r =>
          if cosignRow t.cols r then setCell t.cols r c "" else r, rfl⟩ (ih _)
      · rw [if_neg h]
        exact ih t

lemma moveSourceFilename_rows_map (t : RecordSet) :
    ∃ f, (moveSourceFilename t).rows = t.rows.map f := by
  unfold moveSourceFilename
  cases colIdx t.cols "Source_Filename" with
  | none => exact exists_map_id t.rows
  | some si =>
      cases colIdx t.cols "incoming_client_filename" with
      | none => exact exists_map_id t.rows
      | some ii =>
          dsimp only
          by_cases h : ii < si
      
          · rw [if_pos h]
            exact ⟨fun r => listInsertAt ii (r.getD si "") (r.eraseIdx si), rfl⟩
          · rw [if_neg h]
            exact exists_map_id t.rows

lemma cosignStep_rows_map (t : RecordSet) :
    ∃ f, (cosignStep t).rows = t.rows.map f := by
  unfold cosignStep
  by_cases h : cosignTriggered t = true
  · rw [if_pos h]
    exact exists_map_comp (cosignClearStep_rows_map t)
      (moveSourceFilename_rows_map (cosignClearStep t))
  · rw [if_neg h]
    exact exists_map_id t.rows

lemma clientActionStep_rows_map (t : RecordSet) :
    ∃ f, (clientActionStep t).rows = t.rows.map f := by
  unfold clientActionStep
  by_cases h : hasColL t.cols "Client_Action" = true
  · rw [show (!hasColL t.cols "Client_Action") = false by rw [h]; rfl]
    exact exists_map_id t.rows
  · rw [Bool.not_eq_true] at h
    rw [show (!hasColL t.cols "Client_Action") = true by rw [h]; rfl]
    cases colIdx t.cols "Error_Message" with
    | some i => exact ⟨fun r => listInsertAt (i + 1) "" r, rfl⟩
    | none => exact setColumn_rows_map t "Client_Action" (fun _ => "")

lemma piiScrubStep_rows_map (t : RecordSet) :
    ∃ f, (piiScrubStep t).rows = t.rows.map f := by
  unfold piiScrubStep
  generalize customerPiiColumns = cs
  induction cs generalizing t with
  | nil => exact exists_map_id t.rows
  | cons c cs ih =>
      rw [List.foldl_cons]
      by_cases h : hasColL t.cols c = true
      · rw [if_pos h]
        exact exists_map_comp (setColumn_rows_map t c (fun _ => "")) (ih _)
      · rw [if_neg h]
        exact ih t

lemma normalizeStep_rows_map (t : RecordSet) :
    ∃ f, (normalizeStep t).rows = t.rows.map f :=
  ⟨fun r => r.map replaceNanCell, rfl⟩

lemma stageTRT_rows (ack r1 : RecordSet) (h : stageTRT ack = .ok r1) :
    ∃ f, r1.rows = ack.rows.map f := by
  unfold stageTRT at h
  split at h
  · split at h
    · rename_i vals heq
      rw [Except.ok.injEq] at h
      subst h
      have hvals : vals = ack.rows.map (fun r => trtValue ack.cols r) :=
        mapM_ok_eq_map _ "" ack.rows vals heq
      rw [hvals]
      exact setColumn_rows_map ack "Transaction_Reason_Text"
        (fun r => trtValue ack.cols r)
    · cases h
  · rw [Except.ok.injEq] at h
    subst h
    exact exists_map_id ack.rows

lemma stageTier1_rows (r1 mdf r2 : RecordSet) (t1 : Bool)
    (ce : List (String × String)) (h : stageTier1 r1 mdf = .ok (r2, t1, ce)) :
    ∃ f, r2.rows = r1.rows.map f := by
  unfold stageTier1 at h
  split at h
  · split at h
    · rename_i ce' ca hce hca
      rw [Except.ok.injEq, Prod.mk.injEq, Prod.mk.injEq] at h
      obtain ⟨h2, -, -⟩ := h
      subst h2
      exact exists_map_comp (setColumn_rows_map r1 "composite_key"
        (fun row => ackCompositeKey r1.cols row)) ⟨_, rfl⟩
    · cases h
    · cases h
  · rw [Except.ok.injEq, Prod.mk.injEq, Prod.mk.injEq] at h
    obtain ⟨h2, -, -⟩ := h
    subst h2
    exact exists_map_id r1.rows

lemma stageTier2_rows (r2 mdf : RecordSet) (t1 : Bool)
    (ce : List (String × String)) (r3 : RecordSet)
    (h : stageTier2 r2 mdf t1 ce = .ok r3) :
    ∃ f, r3.rows = r2.rows.map f := by
  unfold stageTier2 at h
  split at h
  · split at h
    · rw [Except.ok.injEq] at h
      subst h
      exact ⟨_, rfl⟩
    · cases h
    · cases h
  · rw [Except.ok.injEq] at h
    subst h
    exact exists_map_id r2.rows

lemma body_rows (ack mdf out : RecordSet)
    (h : applyErrorMappingBody ack mdf = .ok out) :
    ∃ F, out.rows = ack.rows.map F := by
  unfold applyErrorMappingBody at h
  split at h
  · rw [Except.ok.injEq] at h
    subst h
    exact exists_map_id ack.rows
  · split at h
    · rw [Except.ok.injEq] at h
      subst h
      exact exists_map_id ack.rows
    · split at h
      · cases h
      · rename_i r1 heq1
        split at h
        · cases h
        · rename_i r2 t1 ce heq2
          split at h
          · cases h
          · rename_i r3 heq3
            rw [Except.ok.injEq] at h
            subst h
            refine exists_map_comp (stageTRT_rows ack r1 heq1) ?_
            refine exists_map_comp (stageTier1_rows r1 mdf r2 t1 ce heq2) ?_
            refine exists_map_comp (stageTier2_rows r2 mdf t1 ce r3 heq3) ?_
            refine exists_map_comp (dropColumn_rows_map r3 "composite_key") ?_
            exact dropColumn_rows_map _ "Transaction_Reason_Text"

lemma engine_rows_map (ack mdf : RecordSet) :
    ∃ F, (apply_error_mapping ack mdf).rows = ack.rows.map F := by
  unfold apply_error_mapping
  cases h : applyErrorMappingBody ack mdf with
  | error e => exact exists_map_id ack.rows
  | ok out => exact body_rows ack mdf out h

lemma setColumn_cols (t : RecordSet) (c : String) (vals : List String) :
    (setColumn t c vals).cols = t.cols ∨
    ((setColumn t c vals).cols = t.cols ++ [c] ∧ colIdx t.cols c = none) := by
  unfold setColumn
  cases h : colIdx t.cols c with
  | some i => exact Or.inl rfl
  | none => exact Or.inr ⟨rfl, rfl⟩

lemma stageTRT_cols (ack r1 : RecordSet) (h : stageTRT ack = .ok r1) :
    r1.cols = ack.cols ∨
    (r1.cols = ack.cols ++ ["Transaction_Reason_Text"] ∧
      colIdx ack.cols "Transaction_Reason_Text" = none) := by
  unfold stageTRT at h
  split at h
  · split at h
    · rw [Except.ok.injEq] at h
      subst h
      exact setColumn_cols ack "Transaction_Reason_Text" _
    · cases h
  · rw [Except.ok.injEq] at h
    subst h
    exact Or.inl rfl

lemma stageTier1_cols (r1 mdf r2 : RecordSet) (t1 : Bool)
    (ce : List (String × String)) (h : stageTier1 r1 mdf = .ok (r2, t1, ce)) :
    r2.cols = r1.cols ∨
    (r2.cols = r1.cols ++ ["composite_key"] ∧ colIdx r1.cols "composite_key" = none) := by
  unfold stageTier1 at h
  split at h
  · split at h
    · rename_i ce' ca hce hca
      rw [Except.ok.injEq, Prod.mk.injEq, Prod.mk.injEq] at h
      obtain ⟨h2, -, -⟩ := h
      subst h2
      exact setColumn_cols r1 "composite_key" _
    · cases h
    · cases h
  · rw [Except.ok.injEq, Prod.mk.injEq, Prod.mk.injEq] at h
    obtain ⟨h2, -, -⟩ := h
    subst h2
    exact Or.inl rfl

lemma stageTier2_cols (r2 mdf : RecordSet) (t1 : Bool)
    (ce : List (String × String)) (r3 : RecordSet)
    (h : stageTier2 r2 mdf t1 ce = .ok r3) : r3.cols = r2.cols := by
  unfold stageTier2 at h
  split at h
  · split at h
    · rw [Except.ok.injEq] at h
      subst h
      rfl
    · cases h
    · cases h
  · rw [Except.ok.injEq] at h
    subst h
    rfl

lemma colIdx_eraseIdx_none (A : List String) (c : String) (i : Nat)
    (h : colIdx A c = none) : colIdx (A.eraseIdx i) c = none := by
  rw [colIdx_none_iff] at h ⊢
  intro hmem
  exact h (List.eraseIdx_subset A i hmem)

lemma final_drops_cols_sublist (A : List String) (r3 : RecordSet)
    (hshape : r3.cols = A ∨
      (r3.cols = A ++ ["Transaction_Reason_Text"] ∧
        colIdx A "Transaction_Reason_Text" = none) ∨
      (r3.cols = A ++ ["composite_key"] ∧ colIdx A "composite_key" = none) ∨
      (r3.cols = (A ++ ["Transaction_Reason_Text"]) ++ ["composite_key"] ∧
        colIdx A "Transaction_Reason_Text" = none ∧
        colIdx (A ++ ["Transaction_Reason_Text"]) "composite_key" = none)) :
    List.Sublist
      (dropColumnIfPresent (dropColumnIfPresent r3 "composite_key")
        "Transaction_Reason_Text").cols A := by
  obtain ⟨cols3, rows3⟩ := r3
  rcases hshape with h | ⟨h, hT⟩ | ⟨h, hK⟩ | ⟨h, hT, hK⟩ <;>
    dsimp only at h <;> subst h
  · exact ((dropColumn_cols_sublist _ _).trans (dropColumn_cols_sublist _ _))
  · -- cols3 = A ++ [TRT]
    cases hk : colIdx (A ++ ["Transaction_Reason_Text"]) "composite_key" with
    | none =>
        rw [dropColumn_absent2 _ _ _ hk, dropColumn_appended A _ _ hT]
    | some j =>
        cases hAk : colIdx A "composite_key" with
        | none =>
            rw [colIdx_append_right A _ _ hAk] at hk
            simp [colIdx] at hk
        | some i =>
            have hji : j = i := by
              rw [colIdx_append_left A _ _ i hAk] at hk
              cases hk
              rfl
            subst hji
            have hlt : j < A.length := colIdx_lt_length A _ j hAk
            unfold dropColumnIfPresent
            rw [hk]
            dsimp only
            rw [eraseIdx_append_left A _ j hlt]
            have hT' : colIdx (A.eraseIdx j) "Transaction_Reason_Text" = none :=
              colIdx_eraseIdx_none A _ j hT
            have hidx : colIdx ((A.eraseIdx j) ++ ["Transaction_Reason_Text"])
                "Transaction_Reason_Text" = some (A.eraseIdx j).length := by
              rw [colIdx_append_right _ _ _ hT']
              simp [colIdx]
            rw [hidx]
            dsimp only
            rw [show (A.eraseIdx j).length = (A.eraseIdx j).length + 0 by omega,
                eraseIdx_append_plus]
            simp only [List.eraseIdx, List.append_nil]
            exact List.eraseIdx_sublist A j
  · -- cols3 = A ++ [composite_key]
    have hidx : colIdx (A ++ ["composite_key"]) "composite_key" = some A.length := by
      rw [colIdx_append_right _ _ _ hK]
      simp [colIdx]
    unfold dropColumnIfPresent
    rw [hidx]
    dsimp only
    rw [show A.length = A.length + 0 by omega, eraseIdx_append_plus]
    simp only [List.eraseIdx, List.append_nil]
    exact (dropColumn_cols_sublist ⟨A, _⟩ "Transaction_Reason_Text")
  · -- cols3 = (A ++ [TRT]) ++ [composite_key]
    rw [dropColumn_appended _ _ _ hK, dropColumn_appended A _ _ hT]

lemma engine_cols_sublist (ack mdf : RecordSet) :
    List.Sublist (apply_error_mapping ack mdf).cols ack.cols := by
  unfold apply_error_mapping
  cases hbody : applyErrorMappingBody ack mdf with
  | error e => exact List.Sublist.refl ack.cols
  | ok out =>
      unfold applyErrorMappingBody at hbody
      split at hbody
      · rw [Except.ok.injEq] at hbody
        subst hbody
        exact List.Sublist.refl ack.cols
      · split at hbody
        · rw [Except.ok.injEq] at hbody
          subst hbody
          exact List.Sublist.refl ack.cols
        · split at hbody
          · cases hbody
          · rename_i r1 heq1
            split at hbody
            · cases hbody
            · rename_i r2 t1 ce heq2
              split at hbody
              · cases hbody
              · rename_i r3 heq3
                rw [Except.ok.injEq] at hbody
                subst hbody
                have h3 : r3.cols = r2.cols := stageTier2_cols r2 mdf t1 ce r3 heq3
                have h2 := stageTier1_cols r1 mdf r2 t1 ce heq2
                have h1 := stageTRT_cols ack r1 heq1
                apply final_drops_cols_sublist
                rcases h1 with h1 | ⟨h1, hT⟩
                · rcases h2 with h2 | ⟨h2, hK⟩
                  · exact Or.inl (by rw [h3, h2, h1])
                  · exact Or.inr (Or.inr (Or.inl
                      ⟨by rw [h3, h2, h1], by rw [h1] at hK; exact hK⟩))
                · rcases h2 with h2 | ⟨h2, hK⟩
                  · exact Or.inr (Or.inl ⟨by rw [h3, h2, h1], hT⟩)
                  · exact Or.inr (Or.inr (Or.inr
                      ⟨by rw [h3, h2, h1], hT, by rw [h1] at hK; exact hK⟩))

lemma foldDrop_cols_sublist (cs : List String) :
    ∀ t : RecordSet,
      List.Sublist (cs.foldl (fun acc c => dropColumnIfPresent acc c) t).cols t.cols := by
  induction cs with
  | nil => intro t; exact List.Sublist.refl _
  | cons c cs ih =>
      intro t
      rw [List.foldl_cons]
      exact (ih (dropColumnIfPresent t c)).trans (dropColumn_cols_sublist t c)

lemma setColumn_cols_present (t : RecordSet) (c : String) (vals : List String)
    (h : hasColL t.cols c = true) : (setColumn t c vals).cols = t.cols := by
  unfold hasColL at h
  rcases Option.isSome_iff_exists.mp h with ⟨i, hi⟩
  unfold setColumn
  rw [hi]

lemma cosignClearStep_cols (t : RecordSet) : (cosignClearStep t).cols = t.cols := by
  unfold cosignClearStep
  generalize COSIGN_PII_COLUMNS = cs
  induction cs generalizing t with
  | nil => rfl
  | cons c cs ih =>
      rw [List.foldl_cons]
      by_cases h : hasColL t.cols c = true
      · rw [if_pos h]
        exact ih ⟨t.cols, _⟩
      · rw [if_neg h]
        exact ih t

lemma piiScrubStep_cols (t : RecordSet) : (piiScrubStep t).cols = t.cols := by
  unfold piiScrubStep
  generalize customerPiiColumns = cs
  induction cs generalizing t with
  | nil => rfl
  | cons c cs ih =>
      rw [List.foldl_cons]
      by_cases h : hasColL t.cols c = true
      · rw [if_pos h]
        rw [ih (setColumn t c (t.rows.map (fun _ => "")))]
        exact setColumn_cols_present t c _ h
      · rw [if_neg h]
        exact ih t

lemma listInsertAt_length_append (a : α) :
    ∀ l : List α, listInsertAt l.length a l = l ++ [a] := by
  intro l
  induction l with
  | nil => rfl
  | cons x xs ih =>
      rw [List.length_cons, listInsertAt, ih]
      rfl

lemma sourceFilenameStep_cols (t : RecordSet) (gsf : String) :
    (sourceFilenameStep t gsf).cols = t.cols ∨
    ∃ i, (sourceFilenameStep t gsf).cols = listInsertAt i "Source_Filename" t.cols := by
  unfold sourceFilenameStep
  by_cases h : hasColL t.cols "Source_Filename" = true
  · rw [show (!hasColL t.cols "Source_Filename") = false by rw [h]; rfl]
    exact Or.inl (setColumn_cols_present t _ _ h)
  · rw [Bool.not_eq_true] at h
    rw [show (!hasColL t.cols "Source_Filename") = true by rw [h]; rfl]
    cases hocn : colIdx t.cols "Original_Contract_Number" with
    | some i => exact Or.inr ⟨i + 1, rfl⟩
    | none =>
        refine Or.inr ⟨t.cols.length, ?_⟩
        rw [listInsertAt_length_append]
        unfold setColumn
        rw [hasColL_false_colIdx t.cols _ h]
        rfl

lemma clientActionStep_cols (t : RecordSet) :
    (clientActionStep t).cols = t.cols ∨
    ∃ i, (clientActionStep t).cols = listInsertAt i "Client_Action" t.cols := by
  unfold clientActionStep
  by_cases h : hasColL t.cols "Client_Action" = true
  · rw [show (!hasColL t.cols "Client_Action") = false by rw [h]; rfl]
    exact Or.inl rfl
  · rw [Bool.not_eq_true] at h
    rw [show (!hasColL t.cols "Client_Action") = true by rw [h]; rfl]
    cases hem : colIdx t.cols "Error_Message" with
    | some i => exact Or.inr ⟨i + 1, rfl⟩
    | none =>
        refine Or.inr ⟨t.cols.length, ?_⟩
        rw [listInsertAt_length_append]
        unfold setColumn
        rw [hasColL_false_colIdx t.cols _ h]
        rfl

lemma listInsertAt_perm (a : α) :
    ∀ (i : Nat) (l : List α), List.Perm (listInsertAt i a l) (a :: l) := by
  intro i
  induction i with
  | zero => intro l; rw [listInsertAt]
  | succ n ih =>
      intro l
      cases l with
      | nil => rw [listInsertAt]
      | cons x xs =>
          rw [listInsertAt]
          exact (List.Perm.cons x (ih xs)).trans (List.Perm.swap a x xs)

lemma perm_getD_eraseIdx (d : α) :
    ∀ (l : List α) (i : Nat), i < l.length →
      List.Perm l (l.getD i d :: l.eraseIdx i) := by
  intro l
  induction l with
  | nil => intro i h; simp at h
  | cons x xs ih =>
      intro i h
      cases i with
      | zero => rfl
      | succ n =>
          have hn : n < xs.length := by simpa using Nat.lt_of_succ_lt_succ h
          rw [List.eraseIdx_cons_succ]
          have hx : (x :: xs).getD (n + 1) d = xs.getD n d := by
            simp [List.getD_eq_getElem?_getD]
          rw [hx]
          exact (List.Perm.cons x (ih n hn)).trans
            (List.Perm.swap (xs.getD n d) x (xs.eraseIdx n))

lemma moveSourceFilename_cols_perm (t : RecordSet) :
    List.Perm (moveSourceFilename t).cols t.cols := by
  unfold moveSourceFilename
  cases hsi : colIdx t.cols "Source_Filename" with
  | none => exact List.Perm.refl _
  | some si =>
      cases hii : colIdx t.cols "incoming_client_filename" with
      | none => exact List.Perm.refl _
      | some ii =>
          dsimp only
          by_cases h : ii < si
          · rw [if_pos h]
            have hlt : si < t.cols.length := colIdx_lt_length _ _ _ hsi
            have hname : t.cols.getD si "" = "Source_Filename" := colIdx_getD _ _ _ hsi
            refine (listInsertAt_perm _ ii _).trans ?_
            rw [← hname]
            exact (perm_getD_eraseIdx "" t.cols si hlt).symm
          · rw [if_neg h]

lemma tail_rows_map (d4 : RecordSet) (rp : Bool) (emdf : Option RecordSet) :
    ∃ g, (normalizeStep (if rp then piiScrubStep (match emdf with
        | some m => apply_error_mapping d4 m
        | none => d4)
      else (match emdf with
        | some m => apply_error_mapping d4 m
        | none => d4))).rows = d4.rows.map g := by
  cases emdf with
  | some m =>
      refine exists_map_comp (engine_rows_map d4 m) ?_
      cases rp with
      | true =>
          refine exists_map_comp (piiScrubStep_rows_map _) ?_
          exact normalizeStep_rows_map _
      | false => exact normalizeStep_rows_map _
  | none =>
      cases rp with
      | true =>
          refine exists_map_comp (piiScrubStep_rows_map _) ?_
          exact normalizeStep_rows_map _
      | false => exact normalizeStep_rows_map _

lemma process_rows_map (df : RecordSet) (gsf : String) (rp : Bool)
    (emdf : Option RecordSet) (out : RecordSet)
    (h : process_csv_file df gsf rp emdf = .ok out) :
    ∃ F, out.rows = df.rows.map F := by
  unfold process_csv_file at h
  split at h
  · cases h
  · split at h
    · cases h
    · rw [Except.ok.injEq] at h
      subst h
      refine exists_map_comp (dropGeneralStep_rows_map df) ?_
      refine exists_map_comp (sourceFilenameStep_rows_map _ gsf) ?_
      refine exists_map_comp (cosignStep_rows_map _) ?_
      refine exists_map_comp (clientActionStep_rows_map _) ?_
      exact tail_rows_map _ rp emdf

/-- C10.  Row preservation and column-order discipline of the pipeline:
whenever `process_csv_file` succeeds, the output has exactly as many rows as
the validated input and its rows are the image of the input rows under a
single per-row function applied positionally (no row is added, removed or
reordered).  Column-wise, each step only deletes columns (a sublist of the
schema: the general drop and the error-mapping engine), inserts one new
column (`Source_Filename`, `Client_Action`), or leaves the schema unchanged
(COSIGN PII clearing, the PII scrub, normalization) — while the COSIGN
`Source_Filename` move (step 4b), the only sanctioned reordering, is exactly
a permutation of the schema. -/
theorem c10_rows_preserved_columns_not_reordered :
    (∀ (df : RecordSet) (gsf : String) (rp : Bool) (emdf : Option RecordSet)
        (out : RecordSet),
        process_csv_file df gsf rp emdf = .ok out →
          out.rows.length = df.rows.length ∧ ∃ F, out.rows = df.rows.map F) ∧
    (∀ t : RecordSet, List.Sublist (dropGeneralStep t).cols t.cols) ∧
    (∀ (t : RecordSet) (gsf : String), (sourceFilenameStep t gsf).cols = t.cols ∨
        ∃ i, (sourceFilenameStep t gsf).cols = listInsertAt i "Source_Filename" t.cols) ∧
    (∀ t : RecordSet, (cosignClearStep t).cols = t.cols) ∧
    (∀ t : RecordSet, List.Perm (moveSourceFilename t).cols t.cols) ∧
    (∀ t : RecordSet, (clientActionStep t).cols = t.cols ∨
        ∃ i, (clientActionStep t).cols = listInsertAt i "Client_Action" t.cols) ∧
    (∀ ack mdf : RecordSet, List.Sublist (apply_error_mapping ack mdf).cols ack.cols) ∧
    (∀ t : RecordSet, (piiScrubStep t).cols = t.cols) ∧
    (∀ t : RecordSet, (normalizeStep t).cols = t.cols) := by
  refine ⟨?_, fun t => foldDrop_cols_sublist columnsToDropGeneral t,
    sourceFilenameStep_cols, cosignClearStep_cols, moveSourceFilename_cols_perm,
    clientActionStep_cols, engine_cols_sublist, piiScrubStep_cols, fun t => rfl⟩
  intro df gsf rp emdf out h
  obtain ⟨F, hF⟩ := process_rows_map df gsf rp emdf out h
  exact ⟨by rw [hF, List.length_map], F, hF⟩

/-- C10 witness: the pipeline run on a concrete two-row file succeeds with
both rows preserved in order. -/
theorem c10_witness :
    (⟨["A", "Source_Filename", "Client_Action"],
      [["x", "", ""], ["y", "", ""]]⟩ : RecordSet).rows.length
      = (⟨["A"], [["x"], ["y"]]⟩ : RecordSet).rows.length ∧
    ∃ F, (⟨["A", "Source_Filename", "Client_Action"],
      [["x", "", ""], ["y", "", ""]]⟩ : RecordSet).rows
      = (⟨["A"], [["x"], ["y"]]⟩ : RecordSet).rows.map F :=
  c10_rows_preserved_columns_not_reordered.1
    ⟨["A"], [["x"], ["y"]]⟩ "" false none
    ⟨["A", "Source_Filename", "Client_Action"], [["x", "", ""], ["y", "", ""]]⟩
    (by decide)
